import Mathlib

/-!
Shallow embedding of the mded persistence layer (src-tauri):
configuration model and defaults-merging (src/config.rs, src/models.rs),
path validation and the directory-backed note store (src/filesystem.rs),
window-bounds clamping (src/window.rs), and a serialized event-trace model
of the debounced configuration flush (src/config.rs).

JSON numbers are modelled as rationals: the operations exercised here only
copy, serialize and compare numeric values, so no floating-point rounding
behaviour is involved.  Machine integers (u32, i32) are modelled as
Nat/Int with explicit range checks where the serde conversions perform them.
-/

namespace Mded

/-- JSON value model for serde_json::Value.  Objects are association lists;
serde_json maps have unique keys (the parser collapses duplicates), so
key lookup below uses the first match. -/
inductive Json where
  | null : Json
  | bool (b : Bool) : Json
  | num (q : Rat) : Json
  | str (s : String) : Json
  | arr (elems : List Json) : Json
  | obj (fields : List (String × Json)) : Json

/-- Key lookup in a JSON object field list (serde_json Map::get). -/
def jsonGet : List (String × Json) → String → Option Json
  | [], _ => none
  | (k, v) :: rest, key => if k = key then some v else jsonGet rest key

/-- Value::as_object. -/
def Json.getObj : Json → Option (List (String × Json))
  | .obj fields => some fields
  | _ => none

/-- Value::as_str. -/
def Json.asStr : Json → Option String
  | .str s => some s
  | _ => none

/-- Value::as_f64: any JSON number. -/
def Json.asF64 : Json → Option Rat
  | .num q => some q
  | _ => none

/-- Value::as_bool. -/
def Json.asBool : Json → Option Bool
  | .bool b => some b
  | _ => none

/-- Value::as_array. -/
def Json.asArray : Json → Option (List Json)
  | .arr elems => some elems
  | _ => none

/-- serde deserialization of a u32 from a JSON number: an integral value in
[0, 2^32). -/
def Json.asU32 : Json → Option Nat
  | .num q => if q.den = 1 ∧ 0 ≤ q.num ∧ q.num < 4294967296 then some q.num.toNat else none
  | _ => none

/-- serde deserialization of an i32 from a JSON number: an integral value in
[-2^31, 2^31). -/
def Json.asI32 : Json → Option Int
  | .num q => if q.den = 1 ∧ -2147483648 ≤ q.num ∧ q.num < 2147483648 then some q.num else none
  | _ => none

/-- models.rs: WindowBounds.  width/height are u32, x/y optional i32. -/
structure WindowBounds where
  width : Nat
  height : Nat
  x : Option Int
  y : Option Int
deriving DecidableEq

/-- models.rs: Default for WindowBounds (1200 x 800, no position). -/
def WindowBounds.default : WindowBounds :=
  { width := 1200, height := 800, x := none, y := none }

/-- models.rs: Config. -/
structure Config where
  global_shortcut : String
  clipboard_shortcut : String
  quick_note_shortcut : String
  window_bounds : WindowBounds
  last_note_id : Option String
  last_folder : Option String
  pinned_notes : List String
  minimal_mode_bounds : WindowBounds
  window_opacity : Rat
  auto_start_on_boot : Bool
deriving DecidableEq

/-- models.rs: Default for Config. -/
def Config.default : Config :=
  { global_shortcut := "CommandOrControl+Shift+N"
    clipboard_shortcut := "CommandOrControl+Alt+V"
    quick_note_shortcut := "CommandOrControl+Alt+N"
    window_bounds := WindowBounds.default
    last_note_id := none
    last_folder := none
    pinned_notes := []
    minimal_mode_bounds := { width := 400, height := 300, x := none, y := none }
    window_opacity := 1
    auto_start_on_boot := false }

/-- The rational n/1 for a natural n, built with an explicit denominator so
that num and den reduce definitionally even for a symbolic n (the value
equals the cast (n : Rat)). -/
def natToRat (n : Nat) : Rat :=
  ⟨Int.ofNat n, 1, one_ne_zero, Nat.coprime_one_right _⟩

/-- The rational v/1 for an integer v. -/
def intToRat (v : Int) : Rat :=
  ⟨v, 1, one_ne_zero, Nat.coprime_one_right _⟩

/-- Serialization of Option i32 (serde: None becomes null). -/
def optIntToJson : Option Int → Json
  | none => .null
  | some v => .num (intToRat v)

/-- serde serialization of WindowBounds. -/
def windowBoundsToJson (b : WindowBounds) : Json :=
  .obj [("width", .num (natToRat b.width)), ("height", .num (natToRat b.height)),
        ("x", optIntToJson b.x), ("y", optIntToJson b.y)]

/-- serde deserialization of an Option i32 field: None when the key is
missing or null, Some for an in-range integer, failure otherwise. -/
def optI32Field : Option Json → Option (Option Int)
  | none => some none
  | some .null => some none
  | some (.num q) => (Json.asI32 (.num q)).map some
  | some (.bool _) => none
  | some (.str _) => none
  | some (.arr _) => none
  | some (.obj _) => none

/-- serde deserialization of WindowBounds (serde_json::from_value):
width and height are required u32 fields; x and y are Option fields, None
when missing or null; a present field of the wrong type fails the whole
deserialization; unknown fields are ignored; non-objects fail. -/
def windowBoundsFromJson (j : Json) : Option WindowBounds :=
  (j.getObj).bind (fun fields =>
    ((jsonGet fields "width").bind Json.asU32).bind (fun width =>
      ((jsonGet fields "height").bind Json.asU32).bind (fun height =>
        (optI32Field (jsonGet fields "x")).bind (fun x =>
          (optI32Field (jsonGet fields "y")).bind (fun y =>
            some { width := width, height := height, x := x, y := y })))))

/-- Serialization of Option String (serde: None becomes null). -/
def optStrToJson : Option String → Json
  | none => .null
  | some s => .str s

/-- serde serialization of Config (field order as declared in models.rs). -/
def configToJson (c : Config) : Json :=
  .obj [("global_shortcut", .str c.global_shortcut),
        ("clipboard_shortcut", .str c.clipboard_shortcut),
        ("quick_note_shortcut", .str c.quick_note_shortcut),
        ("window_bounds", windowBoundsToJson c.window_bounds),
        ("last_note_id", optStrToJson c.last_note_id),
        ("last_folder", optStrToJson c.last_folder),
        ("pinned_notes", .arr (c.pinned_notes.map Json.str)),
        ("minimal_mode_bounds", windowBoundsToJson c.minimal_mode_bounds),
        ("window_opacity", .num c.window_opacity),
        ("auto_start_on_boot", .bool c.auto_start_on_boot)]

/-- serde deserialization of an Option String field value: null gives None,
a string gives Some, anything else fails. -/
def optStrFromJson : Json → Option (Option String)
  | .null => some none
  | .str s => some (some s)
  | _ => none

/-- serde deserialization of a Vec of String: every element must be a string. -/
def strListFromJson : List Json → Option (List String)
  | [] => some []
  | .str s :: rest => (strListFromJson rest).map (s :: ·)
  | _ => none

/-- serde deserialization of an Option String field: None when the key is
missing or null, Some for a string, failure otherwise. -/
def optStrField : Option Json → Option (Option String)
  | none => some none
  | some v => optStrFromJson v

/-- Strict serde deserialization of Config (serde_json::from_str::<Config>
after parsing): every non-Option field must be present with the right type;
Option fields are None when missing or null; unknown fields are ignored. -/
def configFromJson (j : Json) : Option Config :=
  (j.getObj).bind (fun fields =>
    ((jsonGet fields "global_shortcut").bind Json.asStr).bind (fun gs =>
      ((jsonGet fields "clipboard_shortcut").bind Json.asStr).bind (fun cs =>
        ((jsonGet fields "quick_note_shortcut").bind Json.asStr).bind (fun qs =>
          ((jsonGet fields "window_bounds").bind windowBoundsFromJson).bind (fun wb =>
            (optStrField (jsonGet fields "last_note_id")).bind (fun lni =>
              (optStrField (jsonGet fields "last_folder")).bind (fun lf =>
                ((jsonGet fields "pinned_notes").bind
                    (fun v => v.asArray.bind strListFromJson)).bind (fun pn =>
                  ((jsonGet fields "minimal_mode_bounds").bind
                      windowBoundsFromJson).bind (fun mb =>
                    ((jsonGet fields "window_opacity").bind Json.asF64).bind (fun wo =>
                      ((jsonGet fields "auto_start_on_boot").bind Json.asBool).bind
                        (fun asb =>
                          some { global_shortcut := gs, clipboard_shortcut := cs,
                                 quick_note_shortcut := qs, window_bounds := wb,
                                 last_note_id := lni, last_folder := lf,
                                 pinned_notes := pn, minimal_mode_bounds := mb,
                                 window_opacity := wo,
                                 auto_start_on_boot := asb })))))))))))

/-- config.rs lines 326-364 (and identically lines 92-130): field-by-field
merge of a parsed JSON value into the default configuration.  The source
applies these updates sequentially to a default record; since every update
touches a distinct field, the embedding builds the record in one step with
the same per-field extraction as the source (pinned_notes uses filter_map
over as_str, dropping non-string elements). -/
def mergeValue (j : Json) : Config :=
  match j.getObj with
  | none => Config.default
  | some fields =>
    { global_shortcut := match (jsonGet fields "global_shortcut").bind Json.asStr with
        | some v => v
        | none => Config.default.global_shortcut
      clipboard_shortcut := match (jsonGet fields "clipboard_shortcut").bind Json.asStr with
        | some v => v
        | none => Config.default.clipboard_shortcut
      quick_note_shortcut := match (jsonGet fields "quick_note_shortcut").bind Json.asStr with
        | some v => v
        | none => Config.default.quick_note_shortcut
      window_bounds := match (jsonGet fields "window_bounds").bind windowBoundsFromJson with
        | some v => v
        | none => Config.default.window_bounds
      last_note_id := match jsonGet fields "last_note_id" with
        | some v => v.asStr
        | none => Config.default.last_note_id
      last_folder := match jsonGet fields "last_folder" with
        | some v => v.asStr
        | none => Config.default.last_folder
      pinned_notes := match (jsonGet fields "pinned_notes").bind Json.asArray with
        | some v => v.filterMap Json.asStr
        | none => Config.default.pinned_notes
      minimal_mode_bounds := match (jsonGet fields "minimal_mode_bounds").bind windowBoundsFromJson with
        | some v => v
        | none => Config.default.minimal_mode_bounds
      window_opacity := match (jsonGet fields "window_opacity").bind Json.asF64 with
        | some v => v
        | none => Config.default.window_opacity
      auto_start_on_boot := match (jsonGet fields "auto_start_on_boot").bind Json.asBool with
        | some v => v
        | none => Config.default.auto_start_on_boot }

/-- The input string of merge_config_with_defaults / load_from_file, after
the serde_json parse boundary: either the trimmed string was empty, or the
content failed to parse as JSON, or it parsed to a value.  (A whitespace-only
string is also unparsable as JSON, which matters for the typed-parse paths.) -/
inductive ConfigDoc where
  | emptyish : ConfigDoc
  | unparsable : ConfigDoc
  | value (j : Json) : ConfigDoc

/-- config.rs merge_config_with_defaults (lines 316-367): empty/whitespace
input yields the default configuration, unparsable input is a hard error,
otherwise the parsed value is merged field by field into the defaults. -/
def merge_config_with_defaults : ConfigDoc → Except String Config
  | .emptyish => .ok Config.default
  | .unparsable => .error "Failed to parse config"
  | .value j => .ok (mergeValue j)

/-- config.rs ConfigManager::load_from_file (lines 76-133): a missing file
yields the defaults, unparsable content (including empty content, which
serde rejects) is a hard error, otherwise field-by-field merge. -/
def loadFromFile : Option ConfigDoc → Except String Config
  | none => .ok Config.default
  | some .emptyish => .error "Failed to parse config file"
  | some .unparsable => .error "Failed to parse config file"
  | some (.value j) => .ok (mergeValue j)

/-- config.rs ConfigManager::save_sync (lines 215-223): the written file
content, as a parsed document (serde_json::to_string_pretty of the config). -/
def save_sync (c : Config) : ConfigDoc :=
  .value (configToJson c)

/-- window.rs: minimum window width. -/
def MIN_WINDOW_WIDTH : Nat := 300

/-- window.rs: minimum window height. -/
def MIN_WINDOW_HEIGHT : Nat := 200

/-- window.rs WindowManager::clamp_bounds (lines 97-104): clamp width and
height to the minimums, leave x and y untouched. -/
def clamp_bounds (bounds : WindowBounds) : WindowBounds :=
  { width := max bounds.width MIN_WINDOW_WIDTH
    height := max bounds.height MIN_WINDOW_HEIGHT
    x := bounds.x
    y := bounds.y }

/-- commands/window.rs save_window_bounds (lines 264-295), non-minimal-mode
path: the configuration update applied before the debounced save.  w, h are
the window's outer size (u32) and x, y its outer position (i32); the bounds
are clamped before being stored in the configuration. -/
def save_window_bounds (cfg : Config) (w h : Nat) (x y : Int) : Config :=
  { cfg with window_bounds := clamp_bounds { width := w, height := h, x := some x, y := some y } }

/-- commands/window.rs save_minimal_bounds (lines 175-197) (and the identical
update in exit_minimal_mode, lines 141-143): the current outer bounds are
stored as minimal_mode_bounds with no clamping. -/
def save_minimal_bounds (cfg : Config) (w h : Nat) (x y : Int) : Config :=
  { cfg with minimal_mode_bounds := { width := w, height := h, x := some x, y := some y } }

/-- Bool test that a character list starts with a given pattern. -/
def hasPrefixChars : List Char → List Char → Bool
  | _, [] => true
  | [], _ :: _ => false
  | c :: cs, p :: ps => c = p && hasPrefixChars cs ps

/-- Bool test that a character list contains a pattern as a contiguous
substring (Rust str::contains with a string pattern). -/
def containsSubChars : List Char → List Char → Bool
  | [], pat => pat.isEmpty
  | c :: cs, pat => hasPrefixChars (c :: cs) pat || containsSubChars cs pat

/-- Rust str::contains with a string pattern. -/
def strContainsSub (s pat : String) : Bool :=
  containsSubChars s.data pat.data

/-- Filesystem paths are modelled as lists of components of an absolute
path.  Splitting a relative path string at '/' (Rust Path components on
Unix; empty components collapse). -/
def splitCompsAux (cur : List Char) : List Char → List (List Char)
  | [] => [cur]
  | c :: rest => if c = '/' then cur :: splitCompsAux [] rest else splitCompsAux (cur ++ [c]) rest

/-- Component list of a relative path string. -/
def splitComps (rel : String) : List String :=
  ((splitCompsAux [] rel.data).map (fun cs => String.mk cs)).filter (fun s => s ≠ "")

/-- Rust PathBuf::join: append the components of rel, unless rel is
absolute, in which case it replaces the whole path. -/
def pathJoin (base : List String) (rel : String) : List String :=
  match rel.data with
  | '/' :: _ => splitComps rel
  | _ => base ++ splitComps rel

/-- One step of path normalization: "." is dropped, ".." pops the last
component, anything else is appended. -/
def normStep (acc : List String) (c : String) : List String :=
  if c = "." then acc else if c = ".." then acc.dropLast else acc ++ [c]

/-- Path normalization, as the OS performs when resolving "." and ".."
during canonicalization ("/.." stays at the root). -/
def normPath (p : List String) : List String :=
  p.foldl normStep []

/-- Filesystem oracle used by validate_path: existence probes and
canonicalization (which resolves dots and, on a real filesystem, symlinks;
canonicalization fails on paths that do not exist). -/
structure FsOracle where
  pathExists : List String → Bool
  canon : List String → Option (List String)

/-- filesystem.rs validate_path (lines 23-72).  Rejects relative paths
containing "..", '/' or '\'; joins to the base; canonicalizes the base
(error when that fails); canonicalizes the joined path when it exists
(error when that fails); then requires the canonical target to start with
the canonical base when the target exists, and the joined path to start
with the raw base when it does not.  The canonicalization error strings in
the source carry an appended OS error; the model keeps their fixed prefix. -/
def validate_path (fs : FsOracle) (base_dir : List String) (relative_path : String) :
    Except String (List String) :=
  if strContainsSub relative_path ".." then
    .error "Path contains invalid traversal pattern '..'"
  else if relative_path.data.contains '/' then
    .error "Path contains invalid separator '/'"
  else if relative_path.data.contains '\\' then
    .error "Path contains invalid separator '\\'"
  else
    match fs.canon base_dir with
    | none => .error "Failed to canonicalize base directory"
    | some canonical_base =>
      if fs.pathExists (pathJoin base_dir relative_path) then
        match fs.canon (pathJoin base_dir relative_path) with
        | none => .error "Failed to canonicalize path"
        | some resolved_path =>
          if fs.pathExists resolved_path then
            if canonical_base.isPrefixOf resolved_path then .ok resolved_path
            else .error "Path resolves outside of base directory"
          else
            if base_dir.isPrefixOf (pathJoin base_dir relative_path) then .ok resolved_path
            else .error "Path resolves outside of base directory"
      else
        if base_dir.isPrefixOf (pathJoin base_dir relative_path) then
          .ok (pathJoin base_dir relative_path)
        else .error "Path resolves outside of base directory"

/-- A concrete filesystem oracle with a symlink: inside base directory
["b"], entry "a" is a symlink to sibling entry "real" (both inside the
base), so canonicalizing ["b", "a"] yields ["b", "real"]. -/
def symlinkOracle : FsOracle where
  pathExists p := p = ["b"] || p = ["b", "a"] || p = ["b", "real"]
  canon p :=
    if p = ["b"] then some ["b"]
    else if p = ["b", "a"] then some ["b", "real"]
    else if p = ["b", "real"] then some ["b", "real"]
    else none

/-- Metadata and content of one file (fs::read_to_string / fs::metadata). -/
structure FileData where
  content : String
  modified : Nat
  created : Nat
deriving DecidableEq

/-- Update or insert a file entry by exact key. -/
def setFile : List (List String × FileData) → List String → FileData →
    List (List String × FileData)
  | [], p, d => [(p, d)]
  | (k, v) :: rest, p, d => if k = p then (k, d) :: rest else (k, v) :: setFile rest p d

/-- State of the on-disk store: the application base directory, regular
files (keys stored normalized), directories (normalized; list order models
the filesystem's enumeration order), and the config.json content, kept at
the parsed-document level. -/
structure FsState where
  base_dir : List String
  files : List (List String × FileData)
  dirs : List (List String)
  config_doc : Option ConfigDoc

/-- The notes directory, base_dir/notes. -/
def FsState.notes_dir (st : FsState) : List String :=
  st.base_dir ++ ["notes"]

/-- Look up a file by normalized path. -/
def FsState.lookupFile (st : FsState) (p : List String) : Option FileData :=
  (st.files.find? (fun e => e.1 = normPath p)).map (fun e => e.2)

/-- File existence. -/
def FsState.fileExists (st : FsState) (p : List String) : Bool :=
  (st.lookupFile p).isSome

/-- Directory existence. -/
def FsState.dirExists (st : FsState) (p : List String) : Bool :=
  st.dirs.contains (normPath p)

/-- Path::exists. -/
def FsState.pathExists (st : FsState) (p : List String) : Bool :=
  st.fileExists p || st.dirExists p

/-- The oracle a symlink-free filesystem state presents to validate_path:
canonicalization succeeds exactly on existing paths and resolves dots. -/
def FsState.oracle (st : FsState) : FsOracle where
  pathExists := st.pathExists
  canon p := if st.pathExists p then some (normPath p) else none

/-- All prefixes of a path, shortest first. -/
def prefixesOf (p : List String) : List (List String) :=
  (List.range (p.length + 1)).map (fun n => p.take n)

/-- fs::create_dir_all: create the directory and all its ancestors, in
order; existing directories are kept in place. -/
def FsState.createDirAll (st : FsState) (p : List String) : FsState :=
  { st with
    dirs := (prefixesOf (normPath p)).foldl
      (fun ds q => if ds.contains q then ds else ds ++ [q]) st.dirs }

/-- fs::write: create or truncate the file; the modified time becomes the
current time, the creation time is kept for an existing file. -/
def FsState.writeFile (st : FsState) (p : List String) (content : String) (now : Nat) : FsState :=
  { st with
    files := setFile st.files (normPath p)
      { content := content
        modified := now
        created := match st.lookupFile p with
          | some old => old.created
          | none => now } }

/-- filesystem.rs FileSystem::get_folder_path (lines 198-203). -/
def get_folder_path (st : FsState) (folder : Option String) : List String :=
  match folder with
  | some name => if name = "" then st.notes_dir else pathJoin st.notes_dir name
  | none => st.notes_dir

/-- The folder validation step shared by read_note / save_note /
delete_note / rename_note (validate the folder name when one is given and
it is non-empty). -/
def validateFolderOpt (st : FsState) (folder : Option String) : Except String Unit :=
  match folder with
  | some f =>
    if f = "" then .ok ()
    else
      match validate_path st.oracle st.notes_dir f with
      | .ok _ => .ok ()
      | .error e => .error e
  | none => .ok ()

/-- filesystem.rs FileSystem::save_note (lines 685-711): validate the note
file name and the folder, create the folder when missing, then overwrite
the file wholly.  now is the clock value the OS stamps on the write. -/
def save_note (st : FsState) (note_id content : String) (folder : Option String) (now : Nat) :
    Except String FsState :=
  match validate_path st.oracle st.notes_dir (note_id ++ ".md") with
  | .error e => .error e
  | .ok _ =>
    match validateFolderOpt st folder with
    | .error e => .error e
    | .ok _ =>
      .ok ((if st.pathExists (get_folder_path st folder) then st
            else st.createDirAll (get_folder_path st folder)).writeFile
        (pathJoin (get_folder_path st folder) (note_id ++ ".md")) content now)

/-- filesystem.rs FileSystem::read_note (lines 646-670): validate the note
file name and the folder, then read the file, failing when it is missing. -/
def read_note (st : FsState) (note_id : String) (folder : Option String) :
    Except String String :=
  match validate_path st.oracle st.notes_dir (note_id ++ ".md") with
  | .error e => .error e
  | .ok _ =>
    match validateFolderOpt st folder with
    | .error e => .error e
    | .ok _ =>
      match st.lookupFile (pathJoin (get_folder_path st folder) (note_id ++ ".md")) with
      | some d => .ok d.content
      | none =>
        if st.dirExists (pathJoin (get_folder_path st folder) (note_id ++ ".md")) then
          .error ("Failed to read note '" ++ note_id ++ "'")
        else
          .error ("Note '" ++ note_id ++ "' does not exist")

/-- The configuration the pinned-notes file operations start from: the
parsed config file, with unwrap_or_default on a missing or unreadable
parse (filesystem.rs lines 538-544). -/
def currentConfig (st : FsState) : Config :=
  match st.config_doc with
  | none => Config.default
  | some (.value j) => (configFromJson j).getD Config.default
  | some _ => Config.default

/-- filesystem.rs FileSystem::load_pinned_notes (lines 518-532): an absent
config file yields the empty list; otherwise the file is parsed as a full
Config with unwrap_or_default and its pinned_notes returned.  (The read
itself is modelled as always succeeding; I/O failures are out of scope.) -/
def load_pinned_notes (st : FsState) : List String :=
  match st.config_doc with
  | none => []
  | some (.value j) => ((configFromJson j).getD Config.default).pinned_notes
  | some _ => Config.default.pinned_notes

/-- filesystem.rs FileSystem::save_pinned_notes (lines 535-553): re-read
and re-parse the config file (default on absence or parse failure), replace
its pinned_notes, and overwrite the file with the serialized result. -/
def save_pinned_notes (st : FsState) (pinned : List String) : FsState :=
  { st with
    config_doc := some (.value (configToJson
      { currentConfig st with pinned_notes := pinned })) }

/-- filesystem.rs FileSystem::toggle_pin_note (lines 569-586): load the
pinned list, remove the first occurrence of the id if present (new state
false) or append it (new state true), save, and return the new state. -/
def toggle_pin_note (st : FsState) (note_id : String) : Bool × FsState :=
  if (load_pinned_notes st).contains note_id then
    (false, save_pinned_notes st ((load_pinned_notes st).erase note_id))
  else
    (true, save_pinned_notes st (load_pinned_notes st ++ [note_id]))

/-- Range invariants the Rust types enforce on WindowBounds (width/height
are u32, x/y are i32). -/
def WFBounds (b : WindowBounds) : Prop :=
  b.width < 4294967296 ∧ b.height < 4294967296 ∧
  (∀ v, b.x = some v → -2147483648 ≤ v ∧ v < 2147483648) ∧
  (∀ v, b.y = some v → -2147483648 ≤ v ∧ v < 2147483648)

/-- Range invariants the Rust types enforce on Config. -/
def WFConfig (c : Config) : Prop :=
  WFBounds c.window_bounds ∧ WFBounds c.minimal_mode_bounds

/-- The ten top-level configuration keys recognized by the merge. -/
def recognizedConfigKeys : List String :=
  ["global_shortcut", "clipboard_shortcut", "quick_note_shortcut", "window_bounds",
   "last_note_id", "last_folder", "pinned_notes", "minimal_mode_bounds",
   "window_opacity", "auto_start_on_boot"]

/-- A state whose config file stores a pinned list holding the same id twice
(reachable on disk: the config file is plain JSON the user or another writer
can produce). -/
def pinnedTwiceState : FsState :=
  { base_dir := ["home"], files := [], dirs := [],
    config_doc := some (.value (configToJson
      { Config.default with pinned_notes := ["x", "x"] })) }

/-- A state with no config file. -/
def emptyConfigState : FsState :=
  { base_dir := ["home"], files := [], dirs := [], config_doc := none }

/-- A state whose config file holds content that is not parsable JSON. -/
def unparsableConfigState : FsState :=
  { base_dir := ["home"], files := [], dirs := [], config_doc := some .unparsable }

/-- One trailing carriage return removed (str::strip_suffix of a CR). -/
def stripTrailingCr (l : List Char) : List Char :=
  match l.reverse with
  | '\x0d' :: rest => rest.reverse
  | _ => l

/-- str::lines worker: lines are split at LF, a CR directly before the LF
is removed, and a final segment without a newline is kept as-is (a bare CR
inside or at the end of a line stays). -/
def rustLinesAux : List Char → List Char → List (List Char)
  | cur, [] => if cur.isEmpty then [] else [cur]
  | cur, c :: rest =>
    if c = '\x0a' then stripTrailingCr cur :: rustLinesAux [] rest
    else rustLinesAux (cur ++ [c]) rest

/-- str::lines, as a list of lines. -/
def rustLines (s : String) : List String :=
  (rustLinesAux [] s.data).map (fun cs => String.mk cs)

/-- str::trim_start_matches with pattern character a hash. -/
def dropHashes : List Char → List Char
  | '#' :: rest => dropHashes rest
  | l => l

/-- str::trim_start: leading whitespace removed. -/
def dropWsLeft : List Char → List Char
  | [] => []
  | c :: rest => if c.isWhitespace then dropWsLeft rest else c :: rest

/-- str::trim: leading and trailing whitespace removed. -/
def rustTrim (l : List Char) : List Char :=
  (dropWsLeft (dropWsLeft l).reverse).reverse

/-- filesystem.rs FileSystem::extract_note_title (lines 506-515): the first
line of the content (content.lines().next()), with leading '#' characters
removed and the result whitespace-trimmed; None when the file has no first
line (empty content) or the trimmed result is empty. -/
def extract_note_title (content : String) : Option String :=
  (rustLines content).head?.bind (fun fl =>
    if (rustTrim (dropHashes fl.data)).isEmpty then none
    else some (String.mk (rustTrim (dropHashes fl.data))))

/-- Path::extension() == "md": the file name has a last dot that is not its
first character, with "md" after it. -/
def extIsMd (name : String) : Bool :=
  match name.data.reverse with
  | 'd' :: 'm' :: '.' :: rest => !rest.isEmpty
  | _ => false

/-- str::trim_end_matches(".md") worker, on the reversed character list:
every trailing ".md" repetition removed. -/
def trimMdRev : List Char → List Char
  | 'd' :: 'm' :: '.' :: rest => trimMdRev rest
  | l => l

/-- str::trim_end_matches(".md"). -/
def trimEndMd (s : String) : String :=
  String.mk (trimMdRev s.data.reverse).reverse

/-- models.rs NoteInfo: the metadata list_notes reports per note. -/
structure NoteInfo where
  id : String
  title : String
  modified : Nat
  created : Nat
  folder : String
  pinned : Bool
deriving DecidableEq

/-- read_dir children of a directory that are regular .md files, in
enumeration order (the order of the files list). -/
def mdChildren (st : FsState) (d : List String) : List (List String × FileData) :=
  st.files.filter (fun e =>
    decide (e.1.dropLast = normPath d) && extIsMd (e.1.getLastD ""))

/-- One NoteInfo entry of list_notes (filesystem.rs lines 452-486): the id
is the file name without trailing ".md", the title falls back to the id,
pinned is membership in the loaded pinned list. -/
def noteOfFile (pinned : List String) (fname : String) (e : List String × FileData) :
    NoteInfo :=
  { id := trimEndMd (e.1.getLastD "")
    title := (extract_note_title e.2.content).getD (trimEndMd (e.1.getLastD ""))
    modified := e.2.modified
    created := e.2.created
    folder := fname
    pinned := pinned.contains (trimEndMd (e.1.getLastD "")) }

/-- The notes one scanned directory contributes to list_notes. -/
def scanDir (st : FsState) (pinned : List String) (d : List String) (fname : String) :
    List NoteInfo :=
  (mdChildren st d).map (noteOfFile pinned fname)

/-- The subdirectories of the notes dir (read_dir on the notes dir,
directories only), in enumeration order. -/
def notesSubdirs (st : FsState) : List (List String) :=
  st.dirs.filter (fun q => decide (q.dropLast = normPath st.notes_dir) && !q.isEmpty)

/-- The unsorted enumeration of the None / "All Notes" / "" branch of
list_notes: the notes root under folder name "", then each subdirectory
under its own name. -/
def allNotesUnsorted (st : FsState) : List NoteInfo :=
  scanDir st (load_pinned_notes st) st.notes_dir "" ++
    (notesSubdirs st).flatMap
      (fun q => scanDir st (load_pinned_notes st) q (q.getLastD ""))

/-- The unsorted enumeration of the named-folder branch of list_notes. -/
def folderNotesUnsorted (st : FsState) (fname : String) : List NoteInfo :=
  scanDir st (load_pinned_notes st) (get_folder_path st (some fname)) fname

/-- filesystem.rs list_notes comparator (lines 491-498): pinned first, then
newest modified time first. -/
def noteCmp (a b : NoteInfo) : Ordering :=
  match a.pinned, b.pinned with
  | true, false => .lt
  | false, true => .gt
  | _, _ => compare b.modified a.modified

/-- Vec::sort_by is a stable sort by the comparator: modelled as insertion
sort with respect to the comparator's non-strict order, the unique stable
sort for a total preorder. -/
def sortNotes (l : List NoteInfo) : List NoteInfo :=
  List.insertionSort (fun a b => noteCmp a b ≠ .gt) l

/-- filesystem.rs FileSystem::list_notes (lines 408-501): scan everything
for no folder, "All Notes" or ""; otherwise scan the joined folder path
when it exists (the folder name is never passed through validate_path),
and error otherwise. -/
def list_notes (st : FsState) (folder : Option String) :
    Except String (List NoteInfo) :=
  match folder with
  | none => .ok (sortNotes (allNotesUnsorted st))
  | some fname =>
    if fname = "All Notes" ∨ fname = "" then .ok (sortNotes (allNotesUnsorted st))
    else if st.pathExists (get_folder_path st (some fname)) then
      .ok (sortNotes (folderNotesUnsorted st fname))
    else .error ("Folder '" ++ fname ++ "' does not exist")

/-- The spec wording of the title rule: the first non-blank line, with
leading '#' characters removed and the result whitespace-trimmed, falling
back to the id when no non-blank line exists. -/
def firstNonBlankTitle (content : String) (id : String) : String :=
  match (rustLines content).find? (fun l => !(rustTrim l.data).isEmpty) with
  | some l => String.mk (rustTrim (dropHashes l.data))
  | none => id

/-- A notes store holding one note file "note1.md" whose first line is
blank (content "\nTitle"). -/
def titleState : FsState :=
  { base_dir := ["home"]
    files := [(["home", "notes", "note1.md"],
      { content := "\nTitle", modified := 5, created := 5 })]
    dirs := [["home"], ["home", "notes"]]
    config_doc := none }

/-- A store where a .md file sits in the base directory, outside the notes
directory, reachable from the notes directory by the folder string "..". -/
def escapeState : FsState :=
  { base_dir := ["data"]
    files := [(["data", "secret.md"],
      { content := "# top secret", modified := 3, created := 3 })]
    dirs := [["data"], ["data", "notes"]]
    config_doc := none }

/-- config.rs SAVE_DEBOUNCE_MS (line 12). -/
def SAVE_DEBOUNCE_MS : Nat := 1000

/-- The events of the serialized debounce history of ConfigManager: an
update through a closure, a schedule_save call, and the passage of n
milliseconds (during which a pending save task fires when its deadline is
reached). -/
inductive DbEv where
  | upd (f : Config → Config) : DbEv
  | sched : DbEv
  | tick (n : Nat) : DbEv

/-- The observable state of ConfigManager's persistence machinery: the
primary config, the config_for_save mirror the spawned task reads, the
deadline of the pending save task when one is scheduled, the clock, and
the sequence of disk writes performed so far. -/
structure DbState where
  primary : Config
  mirror : Config
  pending : Option Nat
  now : Nat
  writes : List Config

/-- One step of the serialized debounce history.  update (config.rs lines
147-159) applies the closure to the config and copies it into the
config_for_save mirror.  schedule_save (lines 168-193) aborts any pending
save task and spawns a fresh one sleeping SAVE_DEBOUNCE_MS before writing
the mirror.  A tick advances the clock and performs the pending write when
its deadline has passed. -/
def dbStep (s : DbState) : DbEv → DbState
  | .upd f => { s with primary := f s.primary, mirror := f s.primary }
  | .sched => { s with pending := some (s.now + SAVE_DEBOUNCE_MS) }
  | .tick n =>
    match s.pending with
    | some d =>
      if d ≤ s.now + n then
        { s with now := s.now + n, pending := none, writes := s.writes ++ [s.mirror] }
      else { s with now := s.now + n }
    | none => { s with now := s.now + n }

/-- A serialized event history, folded over the state. -/
def dbRun (s : DbState) (evs : List DbEv) : DbState :=
  evs.foldl dbStep s

/-- A burst of update_and_save rounds: each round applies an update,
schedules the debounced save, and lets its arrival gap pass. -/
def burst (ps : List ((Config → Config) × Nat)) : List DbEv :=
  ps.flatMap (fun p => [.upd p.1, .sched, .tick p.2])

/-- The initial debounce state: default config, nothing scheduled. -/
def dbInit : DbState :=
  { primary := Config.default, mirror := Config.default, pending := none,
    now := 0, writes := [] }

/-- Two updates arriving 5 ms and 7 ms apart. -/
def burstExample : List ((Config → Config) × Nat) :=
  [((fun c => { c with auto_start_on_boot := true }), 5),
   ((fun c => { c with global_shortcut := "X" }), 7)]

end Mded

namespace Mded

theorem jsonGet_cons_ne (k key : String) (v : Json) (fields : List (String × Json))
    (h : k ≠ key) : jsonGet ((k, v) :: fields) key = jsonGet fields key := by
  simp [jsonGet, h]

theorem isPrefixOf_self_append (l t : List String) : l.isPrefixOf (l ++ t) = true := by
  rw [List.isPrefixOf_iff_prefix]
  exact List.prefix_append l t

theorem splitCompsAux_no_slash (cs : List Char) :
    ∀ cur, cs.contains '/' = false → splitCompsAux cur cs = [cur ++ cs] := by
  induction cs with
  | nil => intro cur _; simp [splitCompsAux]
  | cons c rest ih =>
    intro cur h
    simp only [List.contains_cons, Bool.or_eq_false_iff] at h
    have hc : ¬(c = '/') := by
      intro hc; rw [hc] at h; simp at h
    simp only [splitCompsAux, if_neg hc]
    rw [ih (cur ++ [c]) h.2]
    simp

theorem splitComps_no_slash (rel : String) (h : rel.data.contains '/' = false) :
    splitComps rel = if rel = "" then [] else [rel] := by
  unfold splitComps
  rw [splitCompsAux_no_slash rel.data [] h]
  by_cases he : rel = ""
  · subst he; simp
  · have hd : String.mk rel.data = rel := rfl
    simp only [List.nil_append, List.map_cons, List.map_nil, hd]
    rw [if_neg he, List.filter_cons_of_pos]
    · simp
    · simpa using he

theorem pathJoin_no_slash (base : List String) (rel : String)
    (h : rel.data.contains '/' = false) :
    pathJoin base rel = base ++ (if rel = "" then [] else [rel]) := by
  unfold pathJoin
  rw [← splitComps_no_slash rel h]
  cases hd : rel.data with
  | nil => rfl
  | cons c cs =>
    have hc : ¬(c = '/') := by
      intro hc
      rw [hd] at h
      simp [hc] at h
    cases c
    simp_all

theorem normPath_append_single (l : List String) (c : String) (h1 : c ≠ ".")
    (h2 : c ≠ "..") : normPath (l ++ [c]) = normPath l ++ [c] := by
  unfold normPath
  rw [List.foldl_append]
  simp [normStep, h1, h2]

theorem normPath_append_dot (l : List String) : normPath (l ++ ["."]) = normPath l := by
  unfold normPath
  rw [List.foldl_append]
  simp [normStep]

theorem normPath_no_dots (p : List String) :
    ∀ acc, (∀ x ∈ acc, x ≠ "." ∧ x ≠ "..") →
      ∀ x ∈ p.foldl normStep acc, x ≠ "." ∧ x ≠ ".." := by
  induction p with
  | nil => intro acc hacc; simpa using hacc
  | cons c rest ih =>
    intro acc hacc
    simp only [List.foldl_cons]
    refine ih (normStep acc c) ?_
    intro x hx
    unfold normStep at hx
    by_cases h1 : c = "."
    · exact hacc x (by simpa [h1] using hx)
    · by_cases h2 : c = ".."
      · rw [if_neg h1, if_pos h2] at hx
        exact hacc x (List.dropLast_subset acc hx)
      · rw [if_neg h1, if_neg h2] at hx
        rcases List.mem_append.1 hx with h | h
        · exact hacc x h
        · simp only [List.mem_singleton] at h
          exact ⟨h ▸ h1, h ▸ h2⟩

theorem foldl_normStep_no_dots (l : List String) :
    ∀ acc, (∀ x ∈ l, x ≠ "." ∧ x ≠ "..") → l.foldl normStep acc = acc ++ l := by
  induction l with
  | nil => intro acc _; simp
  | cons c rest ih =>
    intro acc h
    have hc := h c (by simp)
    simp only [List.foldl_cons]
    rw [show normStep acc c = acc ++ [c] by simp [normStep, hc.1, hc.2]]
    rw [ih (acc ++ [c]) (fun x hx => h x (by simp [hx]))]
    simp

theorem normPath_idem (p : List String) : normPath (normPath p) = normPath p := by
  have h := normPath_no_dots p [] (by simp)
  unfold normPath
  rw [foldl_normStep_no_dots _ _ h]
  simp

theorem FsState.pathExists_norm (st : FsState) (p : List String) :
    st.pathExists (normPath p) = st.pathExists p := by
  simp [FsState.pathExists, FsState.fileExists, FsState.lookupFile, FsState.dirExists,
    normPath_idem]

theorem setFile_find_self (files : List (List String × FileData)) (k : List String)
    (d : FileData) :
    ((setFile files k d).find? (fun e => e.1 = k)).map (fun e => e.2) = some d := by
  induction files with
  | nil => simp [setFile]
  | cons e rest ih =>
    obtain ⟨k', v⟩ := e
    by_cases hk : k' = k
    · simp [setFile, hk, List.find?]
    · simp only [setFile, if_neg hk]
      rw [List.find?_cons_of_neg _ (by simpa using hk)]
      exact ih

theorem lookupFile_writeFile_self (st : FsState) (p : List String) (content : String)
    (now : Nat) :
    (st.writeFile p content now).lookupFile p
      = some { content := content
               modified := now
               created := match st.lookupFile p with
                 | some old => old.created
                 | none => now } := by
  unfold FsState.writeFile FsState.lookupFile
  exact setFile_find_self _ _ _

theorem isSome_option_map {α β : Type} (o : Option α) (f : α → β) :
    (o.map f).isSome = o.isSome := by
  cases o <;> rfl

theorem setFile_find_mono (files : List (List String × FileData)) (k q : List String)
    (d : FileData) (h : (files.find? (fun e => e.1 = q)).isSome = true) :
    ((setFile files k d).find? (fun e => e.1 = q)).isSome = true := by
  induction files with
  | nil => simp [List.find?] at h
  | cons e rest ih =>
    obtain ⟨k', v⟩ := e
    by_cases hk : k' = k
    · subst hk
      have hset : setFile ((k', v) :: rest) k' d = (k', d) :: rest := by simp [setFile]
      rw [hset]
      by_cases hq : k' = q
      · simp [List.find?, hq]
      · rw [List.find?_cons_of_neg _ (by simpa using hq)] at h ⊢
        exact h
    · simp only [setFile, if_neg hk]
      by_cases hq : k' = q
      · simp [List.find?, hq]
      · rw [List.find?_cons_of_neg _ (by simpa using hq)] at h ⊢
        exact ih h

theorem pathExists_writeFile_mono (st : FsState) (p : List String) (content : String)
    (now : Nat) (q : List String) (h : st.pathExists q = true) :
    (st.writeFile p content now).pathExists q = true := by
  unfold FsState.pathExists FsState.fileExists FsState.lookupFile FsState.dirExists at *
  rcases Bool.or_eq_true_iff.1 h with h | h
  · refine Bool.or_eq_true_iff.2 (Or.inl ?_)
    rw [isSome_option_map] at h ⊢
    exact setFile_find_mono _ _ _ _ h
  · exact Bool.or_eq_true_iff.2 (Or.inr h)

theorem contains_true_iff (l : List (List String)) (q : List String) :
    l.contains q = true ↔ q ∈ l := by
  induction l with
  | nil => simp
  | cons a t ih => simp [List.contains_cons, ih, List.mem_cons]

theorem foldl_insert_contains_mono (qs : List (List String)) (ds : List (List String))
    (q : List String) (h : ds.contains q = true) :
    (qs.foldl (fun ds r => if ds.contains r then ds else ds ++ [r]) ds).contains q = true := by
  induction qs generalizing ds with
  | nil => simpa using h
  | cons r rest ih =>
    simp only [List.foldl_cons]
    by_cases hr : ds.contains r
    · rw [if_pos hr]; exact ih ds h
    · rw [if_neg hr]
      refine ih _ ?_
      rw [contains_true_iff] at h ⊢
      exact List.mem_append.2 (Or.inl h)

theorem foldl_insert_contains_of_mem (qs : List (List String)) (ds : List (List String))
    (q : List String) (h : q ∈ qs) :
    (qs.foldl (fun ds r => if ds.contains r then ds else ds ++ [r]) ds).contains q = true := by
  induction qs generalizing ds with
  | nil => simp at h
  | cons r rest ih =>
    simp only [List.foldl_cons]
    rcases List.mem_cons.1 h with h | h
    · subst h
      by_cases hr : ds.contains q
      · rw [if_pos hr]
        exact foldl_insert_contains_mono rest ds q hr
      · rw [if_neg hr]
        refine foldl_insert_contains_mono rest _ q ?_
        rw [contains_true_iff]
        exact List.mem_append.2 (Or.inr (by simp))
    · by_cases hr : ds.contains r
      · rw [if_pos hr]
        exact ih _ h
      · rw [if_neg hr]
        exact ih _ h

theorem pathExists_createDirAll_mono (st : FsState) (p q : List String)
    (h : st.pathExists q = true) : (st.createDirAll p).pathExists q = true := by
  unfold FsState.pathExists FsState.fileExists FsState.lookupFile FsState.dirExists
    FsState.createDirAll at *
  rcases Bool.or_eq_true_iff.1 h with h | h
  · exact Bool.or_eq_true_iff.2 (Or.inl h)
  · exact Bool.or_eq_true_iff.2 (Or.inr (foldl_insert_contains_mono _ _ _ h))

theorem dirExists_createDirAll_self (st : FsState) (p : List String) :
    (st.createDirAll p).dirExists p = true := by
  unfold FsState.dirExists FsState.createDirAll
  refine foldl_insert_contains_of_mem _ _ _ ?_
  unfold prefixesOf
  refine List.mem_map.2 ⟨(normPath p).length, ?_, by simp⟩
  simp [List.mem_range]

theorem isPrefixOf_refl_paths (l : List String) : l.isPrefixOf l = true := by
  have h := isPrefixOf_self_append l []
  rwa [List.append_nil] at h

theorem strContainsSub_dotdot_self : strContainsSub ".." ".." = true := by decide

theorem normPath_base_leads (base : List String) (rel : String)
    (h1 : strContainsSub rel ".." = false) (h2 : rel.data.contains '/' = false) :
    (normPath base).isPrefixOf (normPath (pathJoin base rel)) = true := by
  rw [pathJoin_no_slash base rel h2]
  by_cases he : rel = ""
  · rw [if_pos he, List.append_nil]
    exact isPrefixOf_refl_paths (normPath base)
  · rw [if_neg he]
    by_cases hdot : rel = "."
    · rw [hdot, normPath_append_dot]
      exact isPrefixOf_refl_paths _
    · have hdd : rel ≠ ".." := by
        intro hc
        rw [hc] at h1
        rw [strContainsSub_dotdot_self] at h1
        cases h1
      rw [normPath_append_single base rel hdot hdd]
      exact isPrefixOf_self_append _ _

theorem oracle_canon_of_exists (st : FsState) (p : List String)
    (h : st.pathExists p = true) : st.oracle.canon p = some (normPath p) := by
  simp [FsState.oracle, h]

theorem bool_neg_of_eq_false {b : Bool} (h : b = false) : ¬(b = true) := by
  rw [h]
  exact Bool.false_ne_true

theorem validate_path_state_ok (st : FsState) (base : List String) (rel : String)
    (hbase : st.pathExists base = true)
    (h1 : strContainsSub rel ".." = false)
    (h2 : rel.data.contains '/' = false)
    (h3 : rel.data.contains '\\' = false) :
    validate_path st.oracle base rel
      = .ok (if st.pathExists (pathJoin base rel) then normPath (pathJoin base rel)
             else pathJoin base rel) := by
  rw [validate_path, if_neg (bool_neg_of_eq_false h1), if_neg (bool_neg_of_eq_false h2),
    if_neg (bool_neg_of_eq_false h3), oracle_canon_of_exists st base hbase]
  by_cases hfull : st.pathExists (pathJoin base rel) = true
  · show (if st.oracle.pathExists (pathJoin base rel) then _ else _) = _
    rw [if_pos (show st.oracle.pathExists (pathJoin base rel) = true from hfull),
      oracle_canon_of_exists st _ hfull]
    show (if st.oracle.pathExists (normPath (pathJoin base rel)) then _ else _) = _
    have hopn : st.oracle.pathExists (normPath (pathJoin base rel)) = true := by
      show st.pathExists _ = true
      rw [FsState.pathExists_norm]
      exact hfull
    rw [if_pos hopn, if_pos (normPath_base_leads base rel h1 h2), if_pos hfull]
  · show (if st.oracle.pathExists (pathJoin base rel) then _ else _) = _
    rw [if_neg (show ¬(st.oracle.pathExists (pathJoin base rel) = true) from hfull),
      if_neg hfull, pathJoin_no_slash base rel h2,
      if_pos (isPrefixOf_self_append _ _)]

theorem validate_ok_no_tokens {fs : FsOracle} {base : List String} {rel : String}
    {p : List String} (h : validate_path fs base rel = .ok p) :
    strContainsSub rel ".." = false ∧ rel.data.contains '/' = false ∧
      rel.data.contains '\\' = false := by
  cases hb1 : strContainsSub rel ".." with
  | true => rw [validate_path, if_pos hb1] at h; exact Except.noConfusion h
  | false =>
    cases hb2 : rel.data.contains '/' with
    | true =>
      rw [validate_path, if_neg (bool_neg_of_eq_false hb1), if_pos hb2] at h
      exact Except.noConfusion h
    | false =>
      cases hb3 : rel.data.contains '\\' with
      | true =>
        rw [validate_path, if_neg (bool_neg_of_eq_false hb1),
          if_neg (bool_neg_of_eq_false hb2), if_pos hb3] at h
        exact Except.noConfusion h
      | false => exact ⟨rfl, rfl, rfl⟩

theorem validate_state_ok_base {st : FsState} {base : List String} {rel : String}
    {p : List String} (h : validate_path st.oracle base rel = .ok p) :
    st.pathExists base = true := by
  obtain ⟨h1, h2, h3⟩ := validate_ok_no_tokens h
  rw [validate_path, if_neg (bool_neg_of_eq_false h1), if_neg (bool_neg_of_eq_false h2),
    if_neg (bool_neg_of_eq_false h3)] at h
  cases hpe : st.pathExists base with
  | true => rfl
  | false =>
    rw [show st.oracle.canon base = none by simp [FsState.oracle, hpe]] at h
    exact Except.noConfusion h

theorem get_folder_path_congr {st st' : FsState} (h : st'.notes_dir = st.notes_dir)
    (folder : Option String) : get_folder_path st' folder = get_folder_path st folder := by
  unfold get_folder_path
  rw [h]

theorem validateFolderOpt_preserved {st st' : FsState} {folder : Option String}
    (hfv : validateFolderOpt st folder = .ok ())
    (hnd : st'.notes_dir = st.notes_dir)
    (hbase : st'.pathExists st.notes_dir = true) :
    validateFolderOpt st' folder = .ok () := by
  cases folder with
  | none => rfl
  | some f =>
    by_cases he : f = ""
    · simp [validateFolderOpt, he]
    · rw [validateFolderOpt, if_neg he] at hfv ⊢
      cases hv2 : validate_path st.oracle st.notes_dir f with
      | error e => rw [hv2] at hfv; exact Except.noConfusion hfv
      | ok q =>
        obtain ⟨h1, h2, h3⟩ := validate_ok_no_tokens hv2
        rw [hnd, validate_path_state_ok st' st.notes_dir f hbase h1 h2 h3]

theorem base_dir_writeFile (st : FsState) (p : List String) (c : String) (now : Nat) :
    (st.writeFile p c now).base_dir = st.base_dir := rfl

theorem base_dir_createDirAll (st : FsState) (p : List String) :
    (st.createDirAll p).base_dir = st.base_dir := rfl

end Mded

/-- C3: the claim as stated is false: a `pinned_notes` key holding an array
with a non-string element is not "of the expected type" (a string list), yet
the merge does not retain the default — it keeps the array's string elements.
Concretely, merging a document whose only key is pinned_notes = ["a", 5]
yields pinned_notes = ["a"], not the default []. -/
theorem c3_merge_wrong_typed_pinned_counterexample :
    Mded.merge_config_with_defaults
        (.value (.obj [("pinned_notes", .arr [.str "a", .num 5])]))
      = .ok { Mded.Config.default with pinned_notes := ["a"] } ∧
    Mded.Config.default.pinned_notes = [] ∧ (["a"] : List String) ≠ [] := by
  refine ⟨rfl, rfl, by decide⟩

/-- C3 (amended): configuration loading is a field-by-field merge into
defaults.  Merging the empty document yields the defaults, merging a full
serialized default round-trips unchanged, and a partial object with only
global_shortcut overrides that one field.  Unrecognized top-level keys are
ignored.  For every field: an absent key keeps the default; a present key of
the expected type overwrites the default; a present key of the wrong type
keeps the default — except that pinned_notes, when present as an array,
is replaced by the array's string elements with non-string elements dropped,
and last_note_id/last_folder, being nullable, are set to the value's string
content (null when it has none, which coincides with their defaults). -/
theorem c3_merge_field_by_field_amended :
    (Mded.merge_config_with_defaults .emptyish = .ok Mded.Config.default) ∧
    (Mded.merge_config_with_defaults (.value (Mded.configToJson Mded.Config.default))
      = .ok Mded.Config.default) ∧
    (Mded.merge_config_with_defaults (.value (.obj [("global_shortcut", .str "Custom+Key")]))
      = .ok { Mded.Config.default with global_shortcut := "Custom+Key" }) ∧
    (∀ k v fields, k ∉ Mded.recognizedConfigKeys →
      Mded.mergeValue (.obj ((k, v) :: fields)) = Mded.mergeValue (.obj fields)) ∧
    (∀ fields, Mded.jsonGet fields "global_shortcut" = none →
      (Mded.mergeValue (.obj fields)).global_shortcut = Mded.Config.default.global_shortcut) ∧
    (∀ fields s, Mded.jsonGet fields "global_shortcut" = some (.str s) →
      (Mded.mergeValue (.obj fields)).global_shortcut = s) ∧
    (∀ fields v, Mded.jsonGet fields "global_shortcut" = some v → v.asStr = none →
      (Mded.mergeValue (.obj fields)).global_shortcut = Mded.Config.default.global_shortcut) ∧
    (∀ fields, Mded.jsonGet fields "clipboard_shortcut" = none →
      (Mded.mergeValue (.obj fields)).clipboard_shortcut = Mded.Config.default.clipboard_shortcut) ∧
    (∀ fields s, Mded.jsonGet fields "clipboard_shortcut" = some (.str s) →
      (Mded.mergeValue (.obj fields)).clipboard_shortcut = s) ∧
    (∀ fields v, Mded.jsonGet fields "clipboard_shortcut" = some v → v.asStr = none →
      (Mded.mergeValue (.obj fields)).clipboard_shortcut = Mded.Config.default.clipboard_shortcut) ∧
    (∀ fields, Mded.jsonGet fields "quick_note_shortcut" = none →
      (Mded.mergeValue (.obj fields)).quick_note_shortcut = Mded.Config.default.quick_note_shortcut) ∧
    (∀ fields s, Mded.jsonGet fields "quick_note_shortcut" = some (.str s) →
      (Mded.mergeValue (.obj fields)).quick_note_shortcut = s) ∧
    (∀ fields v, Mded.jsonGet fields "quick_note_shortcut" = some v → v.asStr = none →
      (Mded.mergeValue (.obj fields)).quick_note_shortcut = Mded.Config.default.quick_note_shortcut) ∧
    (∀ fields, Mded.jsonGet fields "window_bounds" = none →
      (Mded.mergeValue (.obj fields)).window_bounds = Mded.Config.default.window_bounds) ∧
    (∀ fields v b, Mded.jsonGet fields "window_bounds" = some v →
      Mded.windowBoundsFromJson v = some b →
      (Mded.mergeValue (.obj fields)).window_bounds = b) ∧
    (∀ fields v, Mded.jsonGet fields "window_bounds" = some v →
      Mded.windowBoundsFromJson v = none →
      (Mded.mergeValue (.obj fields)).window_bounds = Mded.Config.default.window_bounds) ∧
    (∀ fields, Mded.jsonGet fields "last_note_id" = none →
      (Mded.mergeValue (.obj fields)).last_note_id = none) ∧
    (∀ fields v, Mded.jsonGet fields "last_note_id" = some v →
      (Mded.mergeValue (.obj fields)).last_note_id = v.asStr) ∧
    (∀ fields, Mded.jsonGet fields "last_folder" = none →
      (Mded.mergeValue (.obj fields)).last_folder = none) ∧
    (∀ fields v, Mded.jsonGet fields "last_folder" = some v →
      (Mded.mergeValue (.obj fields)).last_folder = v.asStr) ∧
    (∀ fields, Mded.jsonGet fields "pinned_notes" = none →
      (Mded.mergeValue (.obj fields)).pinned_notes = []) ∧
    (∀ fields l, Mded.jsonGet fields "pinned_notes" = some (.arr l) →
      (Mded.mergeValue (.obj fields)).pinned_notes = l.filterMap Mded.Json.asStr) ∧
    (∀ fields v, Mded.jsonGet fields "pinned_notes" = some v → v.asArray = none →
      (Mded.mergeValue (.obj fields)).pinned_notes = []) ∧
    (∀ fields, Mded.jsonGet fields "minimal_mode_bounds" = none →
      (Mded.mergeValue (.obj fields)).minimal_mode_bounds = Mded.Config.default.minimal_mode_bounds) ∧
    (∀ fields v b, Mded.jsonGet fields "minimal_mode_bounds" = some v →
      Mded.windowBoundsFromJson v = some b →
      (Mded.mergeValue (.obj fields)).minimal_mode_bounds = b) ∧
    (∀ fields v, Mded.jsonGet fields "minimal_mode_bounds" = some v →
      Mded.windowBoundsFromJson v = none →
      (Mded.mergeValue (.obj fields)).minimal_mode_bounds = Mded.Config.default.minimal_mode_bounds) ∧
    (∀ fields, Mded.jsonGet fields "window_opacity" = none →
      (Mded.mergeValue (.obj fields)).window_opacity = Mded.Config.default.window_opacity) ∧
    (∀ fields q, Mded.jsonGet fields "window_opacity" = some (.num q) →
      (Mded.mergeValue (.obj fields)).window_opacity = q) ∧
    (∀ fields v, Mded.jsonGet fields "window_opacity" = some v → v.asF64 = none →
      (Mded.mergeValue (.obj fields)).window_opacity = Mded.Config.default.window_opacity) ∧
    (∀ fields, Mded.jsonGet fields "auto_start_on_boot" = none →
      (Mded.mergeValue (.obj fields)).auto_start_on_boot = Mded.Config.default.auto_start_on_boot) ∧
    (∀ fields b, Mded.jsonGet fields "auto_start_on_boot" = some (.bool b) →
      (Mded.mergeValue (.obj fields)).auto_start_on_boot = b) ∧
    (∀ fields v, Mded.jsonGet fields "auto_start_on_boot" = some v → v.asBool = none →
      (Mded.mergeValue (.obj fields)).auto_start_on_boot = Mded.Config.default.auto_start_on_boot) := by
  refine ⟨rfl, rfl, rfl, ?_, ?_, ?_, ?_, ?_, ?_, ?_, ?_, ?_, ?_, ?_, ?_, ?_, ?_, ?_, ?_,
    ?_, ?_, ?_, ?_, ?_, ?_, ?_, ?_, ?_, ?_, ?_, ?_, ?_⟩
  · intro k v fields hk
    have hne : ∀ key : String, key ∈ Mded.recognizedConfigKeys → k ≠ key :=
      fun key hkey heq => hk (heq ▸ hkey)
    simp only [Mded.mergeValue, Mded.Json.getObj,
      Mded.jsonGet_cons_ne k "global_shortcut" v fields (hne _ (by decide)),
      Mded.jsonGet_cons_ne k "clipboard_shortcut" v fields (hne _ (by decide)),
      Mded.jsonGet_cons_ne k "quick_note_shortcut" v fields (hne _ (by decide)),
      Mded.jsonGet_cons_ne k "window_bounds" v fields (hne _ (by decide)),
      Mded.jsonGet_cons_ne k "last_note_id" v fields (hne _ (by decide)),
      Mded.jsonGet_cons_ne k "last_folder" v fields (hne _ (by decide)),
      Mded.jsonGet_cons_ne k "pinned_notes" v fields (hne _ (by decide)),
      Mded.jsonGet_cons_ne k "minimal_mode_bounds" v fields (hne _ (by decide)),
      Mded.jsonGet_cons_ne k "window_opacity" v fields (hne _ (by decide)),
      Mded.jsonGet_cons_ne k "auto_start_on_boot" v fields (hne _ (by decide))]
  all_goals intros
  all_goals simp_all [Mded.mergeValue, Mded.Json.getObj, Mded.Config.default,
    Mded.WindowBounds.default, Mded.Json.asStr, Mded.Json.asArray, Mded.Json.asF64,
    Mded.Json.asBool]

/-- C8: the claim as stated is false: bounds below the minimums that arrive
via the configuration file are loaded unclamped and persisted unclamped by
save_sync, and minimal_mode_bounds are captured and persisted with no
clamping at all.  Concretely, a file with window_bounds 100 x 100 loads to a
configuration whose save_sync writes window_bounds 100 x 100 (< 300 x 200)
back to disk, and save_minimal_bounds stores 100 x 100 verbatim. -/
theorem c8_unclamped_persistence_counterexample :
    Mded.loadFromFile (some (.value (.obj
        [("window_bounds", .obj [("width", .num 100), ("height", .num 100)])])))
      = .ok { Mded.Config.default with
                window_bounds := { width := 100, height := 100, x := none, y := none } } ∧
    Mded.save_sync { Mded.Config.default with
        window_bounds := { width := 100, height := 100, x := none, y := none } }
      = .value (Mded.configToJson { Mded.Config.default with
          window_bounds := { width := 100, height := 100, x := none, y := none } }) ∧
    ((Mded.configToJson { Mded.Config.default with
        window_bounds := { width := 100, height := 100, x := none, y := none } }).getObj.bind
          fun fs => Mded.jsonGet fs "window_bounds")
      = some (Mded.windowBoundsToJson { width := 100, height := 100, x := none, y := none }) ∧
    100 < Mded.MIN_WINDOW_WIDTH ∧ 100 < Mded.MIN_WINDOW_HEIGHT ∧
    (Mded.save_minimal_bounds Mded.Config.default 100 100 0 0).minimal_mode_bounds
      = { width := 100, height := 100, x := some 0, y := some 0 } :=
  ⟨rfl, rfl, rfl, by decide, by decide, rfl⟩

/-- C8 (amended): only the save_window_bounds command clamps: every
window_bounds it persists has width at least 300 and height at least 200,
clamp_bounds enforces exactly the 300 x 200 minimums leaving x/y untouched,
and the document written for such a configuration carries the clamped
bounds.  (Bounds loaded from the file and minimal-mode bounds are persisted
without clamping, as the counterexample shows.) -/
theorem c8_save_window_bounds_clamps :
    (∀ b : Mded.WindowBounds, Mded.clamp_bounds b =
        { width := max b.width 300, height := max b.height 200, x := b.x, y := b.y }) ∧
    (∀ cfg w h x y,
      Mded.MIN_WINDOW_WIDTH ≤ (Mded.save_window_bounds cfg w h x y).window_bounds.width ∧
      Mded.MIN_WINDOW_HEIGHT ≤ (Mded.save_window_bounds cfg w h x y).window_bounds.height ∧
      (Mded.save_window_bounds cfg w h x y).window_bounds.x = some x ∧
      (Mded.save_window_bounds cfg w h x y).window_bounds.y = some y) ∧
    (∀ cfg w h x y,
      ((Mded.configToJson (Mded.save_window_bounds cfg w h x y)).getObj.bind
          fun fs => Mded.jsonGet fs "window_bounds")
        = some (Mded.windowBoundsToJson
            (Mded.clamp_bounds { width := w, height := h, x := some x, y := some y }))) := by
  refine ⟨fun b => rfl, fun cfg w h x y => ?_, fun cfg w h x y => rfl⟩
  refine ⟨?_, ?_, rfl, rfl⟩
  · simp [Mded.save_window_bounds, Mded.clamp_bounds, Mded.MIN_WINDOW_WIDTH]
  · simp [Mded.save_window_bounds, Mded.clamp_bounds, Mded.MIN_WINDOW_HEIGHT]

/-- C1: the claim as stated is false in its success half: for a token-free
relative path whose joined target exists and resolves inside the base
directory, validate_path returns the canonicalized path, which under a
symlink differs from the joined path.  With base ["b"] and entry "a" a
symlink to sibling "real", validation of "a" succeeds but returns
["b", "real"], not the joined ["b", "a"]. -/
theorem c1_validate_path_returns_canonical_counterexample :
    Mded.strContainsSub "a" ".." = false ∧ "a".data.contains '/' = false ∧
    "a".data.contains '\\' = false ∧
    Mded.pathJoin ["b"] "a" = ["b", "a"] ∧
    Mded.symlinkOracle.pathExists ["b", "a"] = true ∧
    Mded.symlinkOracle.canon ["b", "a"] = some ["b", "real"] ∧
    List.isPrefixOf ["b"] ["b", "real"] = true ∧
    Mded.validate_path Mded.symlinkOracle ["b"] "a" = .ok ["b", "real"] ∧
    (["b", "real"] : List String) ≠ ["b", "a"] := by
  refine ⟨by decide, by decide, by decide, rfl, by decide, rfl, by decide, rfl, by decide⟩

/-- C1 (amended): for every base directory and relative path string, a
string containing "..", "/" or "\" is rejected with a distinct error
message naming the offending token (checked in that order, before touching
the filesystem oracle); and a string free of all three tokens that resolves
inside the base directory succeeds, returning the joined path when the
target does not yet exist and the target's canonicalized form (which may
differ from the joined path under symlinks) when it does. -/
theorem c1_validate_path_amended :
    (∀ (fs : Mded.FsOracle) (base : List String) (rel : String),
      Mded.strContainsSub rel ".." = true →
        Mded.validate_path fs base rel
          = .error "Path contains invalid traversal pattern '..'") ∧
    (∀ (fs : Mded.FsOracle) (base : List String) (rel : String),
      Mded.strContainsSub rel ".." = false → rel.data.contains '/' = true →
        Mded.validate_path fs base rel = .error "Path contains invalid separator '/'") ∧
    (∀ (fs : Mded.FsOracle) (base : List String) (rel : String),
      Mded.strContainsSub rel ".." = false → rel.data.contains '/' = false →
      rel.data.contains '\\' = true →
        Mded.validate_path fs base rel = .error "Path contains invalid separator '\\'") ∧
    ("Path contains invalid traversal pattern '..'"
      ≠ "Path contains invalid separator '/'") ∧
    ("Path contains invalid traversal pattern '..'"
      ≠ "Path contains invalid separator '\\'") ∧
    ("Path contains invalid separator '/'" ≠ "Path contains invalid separator '\\'") ∧
    (∀ (fs : Mded.FsOracle) (base : List String) (rel : String) (cb : List String),
      Mded.strContainsSub rel ".." = false → rel.data.contains '/' = false →
      rel.data.contains '\\' = false → fs.canon base = some cb →
      (fs.pathExists (Mded.pathJoin base rel) = false →
        Mded.validate_path fs base rel = .ok (Mded.pathJoin base rel)) ∧
      (∀ cpath : List String, fs.pathExists (Mded.pathJoin base rel) = true →
        fs.canon (Mded.pathJoin base rel) = some cpath →
        cpath ≠ Mded.pathJoin base rel → fs.pathExists cpath = true →
        cb.isPrefixOf cpath = true →
          Mded.validate_path fs base rel = .ok cpath) ∧
      (∀ cpath : List String, fs.pathExists (Mded.pathJoin base rel) = true →
        fs.canon (Mded.pathJoin base rel) = some cpath →
        fs.pathExists cpath = true → cb.isPrefixOf cpath = true →
          Mded.validate_path fs base rel = .ok cpath)) := by
  refine ⟨?_, ?_, ?_, by decide, by decide, by decide, ?_⟩
  · intro fs base rel h
    rw [Mded.validate_path, if_pos h]
  · intro fs base rel h1 h2
    rw [Mded.validate_path, if_neg (Mded.bool_neg_of_eq_false h1), if_pos h2]
  · intro fs base rel h1 h2 h3
    rw [Mded.validate_path, if_neg (Mded.bool_neg_of_eq_false h1),
      if_neg (Mded.bool_neg_of_eq_false h2), if_pos h3]
  · intro fs base rel cb h1 h2 h3 hcb
    have hmain : ∀ cpath : List String, fs.pathExists (Mded.pathJoin base rel) = true →
        fs.canon (Mded.pathJoin base rel) = some cpath →
        fs.pathExists cpath = true → cb.isPrefixOf cpath = true →
          Mded.validate_path fs base rel = .ok cpath := by
      intro cpath hex hc hexc hpre
      rw [Mded.validate_path, if_neg (Mded.bool_neg_of_eq_false h1),
        if_neg (Mded.bool_neg_of_eq_false h2), if_neg (Mded.bool_neg_of_eq_false h3), hcb]
      show (if fs.pathExists (Mded.pathJoin base rel) then _ else _) = _
      rw [if_pos hex, hc]
      show (if fs.pathExists cpath then _ else _) = _
      rw [if_pos hexc, if_pos hpre]
    refine ⟨?_, fun cpath hex hc _ hexc hpre => hmain cpath hex hc hexc hpre, hmain⟩
    · intro hne
      rw [Mded.validate_path, if_neg (Mded.bool_neg_of_eq_false h1),
        if_neg (Mded.bool_neg_of_eq_false h2), if_neg (Mded.bool_neg_of_eq_false h3), hcb]
      show (if fs.pathExists (Mded.pathJoin base rel) then _ else _) = _
      rw [if_neg (Mded.bool_neg_of_eq_false hne), Mded.pathJoin_no_slash base rel h2,
        if_pos (Mded.isPrefixOf_self_append _ _)]

/-- C1 witness: the amended theorem applied at the concrete symlink oracle:
each rejection branch fires with its own message, a token-free name with a
not-yet-existing target returns the joined path, and a token-free name with
an existing target returns its canonical form. -/
theorem c1_validate_path_amended_witness :
    Mded.validate_path Mded.symlinkOracle ["b"] "x..y"
      = .error "Path contains invalid traversal pattern '..'" ∧
    Mded.validate_path Mded.symlinkOracle ["b"] "x/y"
      = .error "Path contains invalid separator '/'" ∧
    Mded.validate_path Mded.symlinkOracle ["b"] "x\\y"
      = .error "Path contains invalid separator '\\'" ∧
    Mded.validate_path Mded.symlinkOracle ["b"] "new.md"
      = .ok (Mded.pathJoin ["b"] "new.md") ∧
    Mded.validate_path Mded.symlinkOracle ["b"] "real" = .ok ["b", "real"] := by
  obtain ⟨r1, r2, r3, _, _, _, hsucc⟩ := c1_validate_path_amended
  refine ⟨r1 _ _ _ (by decide), r2 _ _ _ (by decide) (by decide),
    r3 _ _ _ (by decide) (by decide) (by decide), ?_, ?_⟩
  · exact (hsucc Mded.symlinkOracle ["b"] "new.md" ["b"] (by decide) (by decide)
      (by decide) (by decide)).1 (by decide)
  · exact (hsucc Mded.symlinkOracle ["b"] "real" ["b"] (by decide) (by decide)
      (by decide) (by decide)).2.2 ["b", "real"] (by decide) (by decide) (by decide)
      (by decide)

/-- C4: for every filesystem state, note id, folder and content string, a
successful save_note followed by read_note with the same id and folder
returns exactly the saved content. -/
theorem c4_save_read_round_trip :
    ∀ (st : Mded.FsState) (note_id content : String) (folder : Option String) (now : Nat)
      (st' : Mded.FsState),
      Mded.save_note st note_id content folder now = .ok st' →
      Mded.read_note st' note_id folder = .ok content := by
  intro st id c folder now st' h
  unfold Mded.save_note at h
  cases hv : Mded.validate_path st.oracle st.notes_dir (id ++ ".md") with
  | error e => rw [hv] at h; exact Except.noConfusion h
  | ok vp =>
    rw [hv] at h
    cases hfv : Mded.validateFolderOpt st folder with
    | error e => rw [hfv] at h; exact Except.noConfusion h
    | ok u =>
      obtain ⟨⟩ := u
      rw [hfv] at h
      injection h with h'
      subst h'
      obtain ⟨h1, h2, h3⟩ := Mded.validate_ok_no_tokens hv
      have hbase : st.pathExists st.notes_dir = true := Mded.validate_state_ok_base hv
      have hnd1 : (if st.pathExists (Mded.get_folder_path st folder) then st
          else st.createDirAll (Mded.get_folder_path st folder)).notes_dir
            = st.notes_dir := by
        unfold Mded.FsState.notes_dir
        split <;> rfl
      have hndw : ((if st.pathExists (Mded.get_folder_path st folder) then st
          else st.createDirAll (Mded.get_folder_path st folder)).writeFile
            (Mded.pathJoin (Mded.get_folder_path st folder) (id ++ ".md")) c now).notes_dir
            = st.notes_dir := hnd1
      have hbw : ((if st.pathExists (Mded.get_folder_path st folder) then st
          else st.createDirAll (Mded.get_folder_path st folder)).writeFile
            (Mded.pathJoin (Mded.get_folder_path st folder) (id ++ ".md")) c now).pathExists
            st.notes_dir = true := by
        apply Mded.pathExists_writeFile_mono
        split
        · exact hbase
        · exact Mded.pathExists_createDirAll_mono st _ st.notes_dir hbase
      unfold Mded.read_note
      rw [hndw, Mded.get_folder_path_congr hndw folder,
        Mded.validate_path_state_ok _ st.notes_dir (id ++ ".md") hbw h1 h2 h3,
        Mded.validateFolderOpt_preserved hfv hndw hbw,
        Mded.lookupFile_writeFile_self]

/-- C4 witness: in a store rooted at ["d"] with an existing notes
directory, saving "hello" under id "n" in folder "work" and reading it back
returns "hello". -/
theorem c4_save_read_round_trip_witness :
    Mded.read_note
        ((Mded.save_note
            { base_dir := ["d"], files := [], dirs := [["d"], ["d", "notes"]],
              config_doc := none }
            "n" "hello" (some "work") 5).toOption.getD
          { base_dir := ["d"], files := [], dirs := [["d"], ["d", "notes"]],
            config_doc := none })
        "n" (some "work")
      = .ok "hello" := by
  exact c4_save_read_round_trip
    { base_dir := ["d"], files := [], dirs := [["d"], ["d", "notes"]], config_doc := none }
    "n" "hello" (some "work") 5 _ rfl

namespace Mded

theorem optionSomeBind {α β : Type} (a : α) (f : α → Option β) :
    (some a).bind f = f a := rfl

theorem getObj_obj (L : List (String × Json)) : Json.getObj (.obj L) = some L := rfl

theorem jsonGet_cons (k : String) (v : Json) (rest : List (String × Json)) (key : String) :
    jsonGet ((k, v) :: rest) key = if k = key then some v else jsonGet rest key := rfl

theorem asStr_str (s : String) : Json.asStr (.str s) = some s := rfl

theorem asF64_num (q : Rat) : Json.asF64 (.num q) = some q := rfl

theorem asBool_bool (b : Bool) : Json.asBool (.bool b) = some b := rfl

theorem asArray_arr (l : List Json) : Json.asArray (.arr l) = some l := rfl

theorem asU32_natToRat (n : Nat) (h : n < 4294967296) :
    Json.asU32 (.num (natToRat n)) = some n := by
  show (if (natToRat n).den = 1 ∧ 0 ≤ (natToRat n).num ∧ (natToRat n).num < 4294967296
       then some (natToRat n).num.toNat else none) = some n
  rw [if_pos]
  · rfl
  · refine ⟨rfl, ?_, ?_⟩
    · show (0 : Int) ≤ (n : Int)
      omega
    · show ((n : Nat) : Int) < 4294967296
      omega

theorem asI32_intToRat (v : Int) (h1 : -2147483648 ≤ v) (h2 : v < 2147483648) :
    Json.asI32 (.num (intToRat v)) = some v := by
  show (if (intToRat v).den = 1 ∧ -2147483648 ≤ (intToRat v).num ∧ (intToRat v).num < 2147483648
       then some (intToRat v).num else none) = some v
  rw [if_pos]
  · rfl
  · exact ⟨rfl, h1, h2⟩

theorem asU32_lt {j : Json} {n : Nat} (h : Json.asU32 j = some n) : n < 4294967296 := by
  cases j with
  | num q =>
    have h2 : (if q.den = 1 ∧ 0 ≤ q.num ∧ q.num < 4294967296
        then some q.num.toNat else none) = some n := h
    by_cases hc : q.den = 1 ∧ 0 ≤ q.num ∧ q.num < 4294967296
    · rw [if_pos hc] at h2
      injection h2 with h3
      subst h3
      obtain ⟨-, -, hlt⟩ := hc
      omega
    · rw [if_neg hc] at h2
      exact Option.noConfusion h2
  | null => exact Option.noConfusion h
  | bool b => exact Option.noConfusion h
  | str s => exact Option.noConfusion h
  | arr l => exact Option.noConfusion h
  | obj f => exact Option.noConfusion h

theorem asI32_bounds {j : Json} {v : Int} (h : Json.asI32 j = some v) :
    -2147483648 ≤ v ∧ v < 2147483648 := by
  cases j with
  | num q =>
    have h2 : (if q.den = 1 ∧ -2147483648 ≤ q.num ∧ q.num < 2147483648
        then some q.num else none) = some v := h
    by_cases hc : q.den = 1 ∧ -2147483648 ≤ q.num ∧ q.num < 2147483648
    · rw [if_pos hc] at h2
      injection h2 with h3
      subst h3
      exact ⟨hc.2.1, hc.2.2⟩
    · rw [if_neg hc] at h2
      exact Option.noConfusion h2
  | null => exact Option.noConfusion h
  | bool b => exact Option.noConfusion h
  | str s => exact Option.noConfusion h
  | arr l => exact Option.noConfusion h
  | obj f => exact Option.noConfusion h

theorem optI32Field_bounds {o : Option Json} {x : Option Int}
    (h : optI32Field o = some x) :
    ∀ v, x = some v → -2147483648 ≤ v ∧ v < 2147483648 := by
  intro v hv
  subst hv
  cases o with
  | none =>
    have h2 : some (none : Option Int) = some (some v) := h
    injection h2 with h3
    exact Option.noConfusion h3
  | some j =>
    cases j with
    | null =>
      have h2 : some (none : Option Int) = some (some v) := h
      injection h2 with h3
      exact Option.noConfusion h3
    | num q =>
      have h2 : (Json.asI32 (.num q)).map some = some (some v) := h
      cases hq : Json.asI32 (.num q) with
      | none =>
        rw [hq] at h2
        exact Option.noConfusion h2
      | some w =>
        rw [hq] at h2
        have h3 : some (some w) = some (some v) := h2
        injection h3 with h4
        injection h4 with h5
        subst h5
        exact asI32_bounds hq
    | bool b => exact Option.noConfusion h
    | str s => exact Option.noConfusion h
    | arr l => exact Option.noConfusion h
    | obj f => exact Option.noConfusion h

theorem optI32Field_round (x : Option Int)
    (hx : ∀ v, x = some v → -2147483648 ≤ v ∧ v < 2147483648) :
    optI32Field (some (optIntToJson x)) = some x := by
  cases x with
  | none => rfl
  | some v =>
    obtain ⟨h1, h2⟩ := hx v rfl
    show (Json.asI32 (.num (intToRat v))).map some = some (some v)
    rw [asI32_intToRat v h1 h2]
    rfl

theorem strListFromJson_map (l : List String) :
    strListFromJson (l.map Json.str) = some l := by
  induction l with
  | nil => rfl
  | cons a t ih =>
    show (strListFromJson (t.map Json.str)).map (a :: ·) = some (a :: t)
    rw [ih]
    rfl

theorem optStrField_round (o : Option String) :
    optStrField (some (optStrToJson o)) = some o := by
  cases o <;> rfl

theorem windowBounds_round_trip (b : WindowBounds) (h : WFBounds b) :
    windowBoundsFromJson (windowBoundsToJson b) = some b := by
  obtain ⟨w, hgt, x, y⟩ := b
  obtain ⟨hw, hh, hx, hy⟩ := h
  have e1 : jsonGet [("width", Json.num (natToRat w)), ("height", .num (natToRat hgt)),
      ("x", optIntToJson x), ("y", optIntToJson y)] "width"
      = some (Json.num (natToRat w)) := by
    rw [jsonGet_cons, if_pos rfl]
  have e2 : jsonGet [("width", Json.num (natToRat w)), ("height", .num (natToRat hgt)),
      ("x", optIntToJson x), ("y", optIntToJson y)] "height"
      = some (Json.num (natToRat hgt)) := by
    rw [jsonGet_cons, if_neg (by decide), jsonGet_cons, if_pos rfl]
  have e3 : jsonGet [("width", Json.num (natToRat w)), ("height", .num (natToRat hgt)),
      ("x", optIntToJson x), ("y", optIntToJson y)] "x"
      = some (optIntToJson x) := by
    rw [jsonGet_cons, if_neg (by decide), jsonGet_cons, if_neg (by decide),
      jsonGet_cons, if_pos rfl]
  have e4 : jsonGet [("width", Json.num (natToRat w)), ("height", .num (natToRat hgt)),
      ("x", optIntToJson x), ("y", optIntToJson y)] "y"
      = some (optIntToJson y) := by
    rw [jsonGet_cons, if_neg (by decide), jsonGet_cons, if_neg (by decide),
      jsonGet_cons, if_neg (by decide), jsonGet_cons, if_pos rfl]
  rw [windowBoundsToJson, windowBoundsFromJson, getObj_obj, optionSomeBind]
  rw [e1, optionSomeBind, asU32_natToRat w hw, optionSomeBind]
  rw [e2, optionSomeBind, asU32_natToRat hgt hh, optionSomeBind]
  rw [e3, optI32Field_round x hx, optionSomeBind]
  rw [e4, optI32Field_round y hy, optionSomeBind]

theorem wfBounds_of_fromJson {j : Json} {b : WindowBounds}
    (h : windowBoundsFromJson j = some b) : WFBounds b := by
  rw [windowBoundsFromJson] at h
  obtain ⟨fields, hobj, h⟩ := Option.bind_eq_some.1 h
  obtain ⟨w, hw, h⟩ := Option.bind_eq_some.1 h
  obtain ⟨hgt, hh, h⟩ := Option.bind_eq_some.1 h
  obtain ⟨x, hx, h⟩ := Option.bind_eq_some.1 h
  obtain ⟨y, hy, h⟩ := Option.bind_eq_some.1 h
  injection h with h2
  subst h2
  obtain ⟨v1, -, hv1⟩ := Option.bind_eq_some.1 hw
  obtain ⟨v2, -, hv2⟩ := Option.bind_eq_some.1 hh
  exact ⟨asU32_lt hv1, asU32_lt hv2, optI32Field_bounds hx, optI32Field_bounds hy⟩

theorem wf_default : WFConfig Config.default :=
  ⟨⟨by decide, by decide, fun v hv => Option.noConfusion hv,
      fun v hv => Option.noConfusion hv⟩,
   ⟨by decide, by decide, fun v hv => Option.noConfusion hv,
      fun v hv => Option.noConfusion hv⟩⟩

theorem wf_of_configFromJson {j : Json} {c : Config} (h : configFromJson j = some c) :
    WFConfig c := by
  rw [configFromJson] at h
  obtain ⟨fields, hobj, h⟩ := Option.bind_eq_some.1 h
  obtain ⟨gs, hgs, h⟩ := Option.bind_eq_some.1 h
  obtain ⟨cs, hcs, h⟩ := Option.bind_eq_some.1 h
  obtain ⟨qs, hqs, h⟩ := Option.bind_eq_some.1 h
  obtain ⟨wb, hwb, h⟩ := Option.bind_eq_some.1 h
  obtain ⟨lni, hlni, h⟩ := Option.bind_eq_some.1 h
  obtain ⟨lf, hlf, h⟩ := Option.bind_eq_some.1 h
  obtain ⟨pn, hpn, h⟩ := Option.bind_eq_some.1 h
  obtain ⟨mb, hmb, h⟩ := Option.bind_eq_some.1 h
  obtain ⟨wo, hwo, h⟩ := Option.bind_eq_some.1 h
  obtain ⟨asb, hasb, h⟩ := Option.bind_eq_some.1 h
  injection h with h2
  subst h2
  obtain ⟨v4, -, hv4⟩ := Option.bind_eq_some.1 hwb
  obtain ⟨v8, -, hv8⟩ := Option.bind_eq_some.1 hmb
  exact ⟨wfBounds_of_fromJson hv4, wfBounds_of_fromJson hv8⟩

theorem currentConfig_eq (st : FsState) :
    currentConfig st = match st.config_doc with
      | none => Config.default
      | some (.value j) => (configFromJson j).getD Config.default
      | some _ => Config.default := rfl

theorem currentConfig_wf (st : FsState) : WFConfig (currentConfig st) := by
  rw [currentConfig_eq]
  cases st.config_doc with
  | none => exact wf_default
  | some doc =>
    cases doc with
    | emptyish => exact wf_default
    | unparsable => exact wf_default
    | value j =>
      cases hp : configFromJson j with
      | none =>
        show WFConfig ((configFromJson j).getD Config.default)
        rw [hp]
        exact wf_default
      | some c =>
        show WFConfig ((configFromJson j).getD Config.default)
        rw [hp]
        exact wf_of_configFromJson hp

theorem configFromJson_toJson (c : Config) (h : WFConfig c) :
    configFromJson (configToJson c) = some c := by
  obtain ⟨gs, cs, qs, wb, lni, lf, pn, mb, wo, asb⟩ := c
  obtain ⟨hwb, hmb⟩ := h
  have e1 : jsonGet [("global_shortcut", Json.str gs), ("clipboard_shortcut", Json.str cs), ("quick_note_shortcut", Json.str qs), ("window_bounds", windowBoundsToJson wb), ("last_note_id", optStrToJson lni), ("last_folder", optStrToJson lf), ("pinned_notes", Json.arr (List.map Json.str pn)), ("minimal_mode_bounds", windowBoundsToJson mb), ("window_opacity", Json.num wo), ("auto_start_on_boot", Json.bool asb)] "global_shortcut" = some (Json.str gs) := by
    rw [jsonGet_cons, if_pos rfl]
  have e2 : jsonGet [("global_shortcut", Json.str gs), ("clipboard_shortcut", Json.str cs), ("quick_note_shortcut", Json.str qs), ("window_bounds", windowBoundsToJson wb), ("last_note_id", optStrToJson lni), ("last_folder", optStrToJson lf), ("pinned_notes", Json.arr (List.map Json.str pn)), ("minimal_mode_bounds", windowBoundsToJson mb), ("window_opacity", Json.num wo), ("auto_start_on_boot", Json.bool asb)] "clipboard_shortcut" = some (Json.str cs) := by
    rw [jsonGet_cons, if_neg (by decide),
      jsonGet_cons, if_pos rfl]
  have e3 : jsonGet [("global_shortcut", Json.str gs), ("clipboard_shortcut", Json.str cs), ("quick_note_shortcut", Json.str qs), ("window_bounds", windowBoundsToJson wb), ("last_note_id", optStrToJson lni), ("last_folder", optStrToJson lf), ("pinned_notes", Json.arr (List.map Json.str pn)), ("minimal_mode_bounds", windowBoundsToJson mb), ("window_opacity", Json.num wo), ("auto_start_on_boot", Json.bool asb)] "quick_note_shortcut" = some (Json.str qs) := by
    rw [jsonGet_cons, if_neg (by decide),
      jsonGet_cons, if_neg (by decide),
      jsonGet_cons, if_pos rfl]
  have e4 : jsonGet [("global_shortcut", Json.str gs), ("clipboard_shortcut", Json.str cs), ("quick_note_shortcut", Json.str qs), ("window_bounds", windowBoundsToJson wb), ("last_note_id", optStrToJson lni), ("last_folder", optStrToJson lf), ("pinned_notes", Json.arr (List.map Json.str pn)), ("minimal_mode_bounds", windowBoundsToJson mb), ("window_opacity", Json.num wo), ("auto_start_on_boot", Json.bool asb)] "window_bounds" = some (windowBoundsToJson wb) := by
    rw [jsonGet_cons, if_neg (by decide),
      jsonGet_cons, if_neg (by decide),
      jsonGet_cons, if_neg (by decide),
      jsonGet_cons, if_pos rfl]
  have e5 : jsonGet [("global_shortcut", Json.str gs), ("clipboard_shortcut", Json.str cs), ("quick_note_shortcut", Json.str qs), ("window_bounds", windowBoundsToJson wb), ("last_note_id", optStrToJson lni), ("last_folder", optStrToJson lf), ("pinned_notes", Json.arr (List.map Json.str pn)), ("minimal_mode_bounds", windowBoundsToJson mb), ("window_opacity", Json.num wo), ("auto_start_on_boot", Json.bool asb)] "last_note_id" = some (optStrToJson lni) := by
    rw [jsonGet_cons, if_neg (by decide),
      jsonGet_cons, if_neg (by decide),
      jsonGet_cons, if_neg (by decide),
      jsonGet_cons, if_neg (by decide),
      jsonGet_cons, if_pos rfl]
  have e6 : jsonGet [("global_shortcut", Json.str gs), ("clipboard_shortcut", Json.str cs), ("quick_note_shortcut", Json.str qs), ("window_bounds", windowBoundsToJson wb), ("last_note_id", optStrToJson lni), ("last_folder", optStrToJson lf), ("pinned_notes", Json.arr (List.map Json.str pn)), ("minimal_mode_bounds", windowBoundsToJson mb), ("window_opacity", Json.num wo), ("auto_start_on_boot", Json.bool asb)] "last_folder" = some (optStrToJson lf) := by
    rw [jsonGet_cons, if_neg (by decide),
      jsonGet_cons, if_neg (by decide),
      jsonGet_cons, if_neg (by decide),
      jsonGet_cons, if_neg (by decide),
      jsonGet_cons, if_neg (by decide),
      jsonGet_cons, if_pos rfl]
  have e7 : jsonGet [("global_shortcut", Json.str gs), ("clipboard_shortcut", Json.str cs), ("quick_note_shortcut", Json.str qs), ("window_bounds", windowBoundsToJson wb), ("last_note_id", optStrToJson lni), ("last_folder", optStrToJson lf), ("pinned_notes", Json.arr (List.map Json.str pn)), ("minimal_mode_bounds", windowBoundsToJson mb), ("window_opacity", Json.num wo), ("auto_start_on_boot", Json.bool asb)] "pinned_notes" = some (Json.arr (List.map Json.str pn)) := by
    rw [jsonGet_cons, if_neg (by decide),
      jsonGet_cons, if_neg (by decide),
      jsonGet_cons, if_neg (by decide),
      jsonGet_cons, if_neg (by decide),
      jsonGet_cons, if_neg (by decide),
      jsonGet_cons, if_neg (by decide),
      jsonGet_cons, if_pos rfl]
  have e8 : jsonGet [("global_shortcut", Json.str gs), ("clipboard_shortcut", Json.str cs), ("quick_note_shortcut", Json.str qs), ("window_bounds", windowBoundsToJson wb), ("last_note_id", optStrToJson lni), ("last_folder", optStrToJson lf), ("pinned_notes", Json.arr (List.map Json.str pn)), ("minimal_mode_bounds", windowBoundsToJson mb), ("window_opacity", Json.num wo), ("auto_start_on_boot", Json.bool asb)] "minimal_mode_bounds" = some (windowBoundsToJson mb) := by
    rw [jsonGet_cons, if_neg (by decide),
      jsonGet_cons, if_neg (by decide),
      jsonGet_cons, if_neg (by decide),
      jsonGet_cons, if_neg (by decide),
      jsonGet_cons, if_neg (by decide),
      jsonGet_cons, if_neg (by decide),
      jsonGet_cons, if_neg (by decide),
      jsonGet_cons, if_pos rfl]
  have e9 : jsonGet [("global_shortcut", Json.str gs), ("clipboard_shortcut", Json.str cs), ("quick_note_shortcut", Json.str qs), ("window_bounds", windowBoundsToJson wb), ("last_note_id", optStrToJson lni), ("last_folder", optStrToJson lf), ("pinned_notes", Json.arr (List.map Json.str pn)), ("minimal_mode_bounds", windowBoundsToJson mb), ("window_opacity", Json.num wo), ("auto_start_on_boot", Json.bool asb)] "window_opacity" = some (Json.num wo) := by
    rw [jsonGet_cons, if_neg (by decide),
      jsonGet_cons, if_neg (by decide),
      jsonGet_cons, if_neg (by decide),
      jsonGet_cons, if_neg (by decide),
      jsonGet_cons, if_neg (by decide),
      jsonGet_cons, if_neg (by decide),
      jsonGet_cons, if_neg (by decide),
      jsonGet_cons, if_neg (by decide),
      jsonGet_cons, if_pos rfl]
  have e10 : jsonGet [("global_shortcut", Json.str gs), ("clipboard_shortcut", Json.str cs), ("quick_note_shortcut", Json.str qs), ("window_bounds", windowBoundsToJson wb), ("last_note_id", optStrToJson lni), ("last_folder", optStrToJson lf), ("pinned_notes", Json.arr (List.map Json.str pn)), ("minimal_mode_bounds", windowBoundsToJson mb), ("window_opacity", Json.num wo), ("auto_start_on_boot", Json.bool asb)] "auto_start_on_boot" = some (Json.bool asb) := by
    rw [jsonGet_cons, if_neg (by decide),
      jsonGet_cons, if_neg (by decide),
      jsonGet_cons, if_neg (by decide),
      jsonGet_cons, if_neg (by decide),
      jsonGet_cons, if_neg (by decide),
      jsonGet_cons, if_neg (by decide),
      jsonGet_cons, if_neg (by decide),
      jsonGet_cons, if_neg (by decide),
      jsonGet_cons, if_neg (by decide),
      jsonGet_cons, if_pos rfl]
  rw [configToJson, configFromJson, getObj_obj, optionSomeBind]
  rw [e1, optionSomeBind, asStr_str, optionSomeBind]
  rw [e2, optionSomeBind, asStr_str, optionSomeBind]
  rw [e3, optionSomeBind, asStr_str, optionSomeBind]
  rw [e4, optionSomeBind, windowBounds_round_trip wb hwb, optionSomeBind]
  rw [e5, optStrField_round, optionSomeBind]
  rw [e6, optStrField_round, optionSomeBind]
  rw [e7, optionSomeBind, asArray_arr, optionSomeBind, strListFromJson_map, optionSomeBind]
  rw [e8, optionSomeBind, windowBounds_round_trip mb hmb, optionSomeBind]
  rw [e9, optionSomeBind, asF64_num, optionSomeBind]
  rw [e10, optionSomeBind, asBool_bool, optionSomeBind]

theorem load_pinned_value (st : FsState) (j : Json) :
    load_pinned_notes { st with config_doc := some (.value j) } =
      ((configFromJson j).getD Config.default).pinned_notes := rfl

theorem load_after_save (st : FsState) (pinned : List String) :
    load_pinned_notes (save_pinned_notes st pinned) = pinned := by
  have hwf : WFConfig { currentConfig st with pinned_notes := pinned } :=
    ⟨(currentConfig_wf st).1, (currentConfig_wf st).2⟩
  rw [save_pinned_notes, load_pinned_value, configFromJson_toJson _ hwf,
    Option.getD_some]

theorem contains_str_iff (l : List String) (q : String) : l.contains q = true ↔ q ∈ l := by
  induction l with
  | nil => simp
  | cons a t ih => simp [List.contains_cons, ih, List.mem_cons]

theorem load_pinned_notes_eq (st : FsState) :
    load_pinned_notes st = match st.config_doc with
      | none => []
      | some (.value j) => ((configFromJson j).getD Config.default).pinned_notes
      | some _ => Config.default.pinned_notes := rfl

theorem toggle_pos {st : FsState} {id : String}
    (hb : (load_pinned_notes st).contains id = true) :
    toggle_pin_note st id =
      (false, save_pinned_notes st ((load_pinned_notes st).erase id)) := by
  rw [toggle_pin_note, if_pos hb]

theorem toggle_neg {st : FsState} {id : String}
    (hb : ¬ (load_pinned_notes st).contains id = true) :
    toggle_pin_note st id =
      (true, save_pinned_notes st (load_pinned_notes st ++ [id])) := by
  rw [toggle_pin_note, if_neg hb]

end Mded

namespace Mded

/-- C6 counterexample: starting from a config file whose pinned list holds
"x" twice (initial membership true), the second of two toggle_pin_note calls
returns false rather than the claimed initial membership true, and the
persisted membership after the second call is false rather than the claimed
initial membership true: erasing one duplicate leaves the other, so the
second call erases again instead of re-adding. -/
theorem c6_toggle_twice_counterexample :
    (load_pinned_notes pinnedTwiceState).contains "x" = true ∧
    (toggle_pin_note (toggle_pin_note pinnedTwiceState "x").2 "x").1 = false ∧
    (load_pinned_notes
        (toggle_pin_note (toggle_pin_note pinnedTwiceState "x").2 "x").2).contains "x"
      = false :=
  ⟨rfl, rfl, rfl⟩

/-- C6 amended: when the stored pinned list holds the id at most once (as is
the case for every list produced by toggle_pin_note itself), two successive
toggle_pin_note calls return (not b, b) for b the initial membership, and the
persisted membership after the second call equals b. -/
theorem c6_toggle_twice_amended (st : FsState) (id : String)
    (hcount : (load_pinned_notes st).count id ≤ 1) :
    (toggle_pin_note st id).1 = !((load_pinned_notes st).contains id) ∧
    (toggle_pin_note (toggle_pin_note st id).2 id).1
      = (load_pinned_notes st).contains id ∧
    (load_pinned_notes
        (toggle_pin_note (toggle_pin_note st id).2 id).2).contains id
      = (load_pinned_notes st).contains id := by
  by_cases hb : (load_pinned_notes st).contains id = true
  · have hz : ((load_pinned_notes st).erase id).count id = 0 := by
      rw [List.count_erase_self]
      omega
    have hnot : id ∉ (load_pinned_notes st).erase id := List.count_eq_zero.1 hz
    have hcontains : ((load_pinned_notes st).erase id).contains id = false := by
      cases hcc : ((load_pinned_notes st).erase id).contains id with
      | false => rfl
      | true => exact absurd ((contains_str_iff _ _).1 hcc) hnot
    have hb2 : ¬ (load_pinned_notes
        (save_pinned_notes st ((load_pinned_notes st).erase id))).contains id = true := by
      rw [load_after_save, hcontains]
      exact fun hc => Bool.noConfusion hc
    refine ⟨?_, ?_, ?_⟩
    · rw [toggle_pos hb, hb]
      rfl
    · rw [toggle_pos hb]
      dsimp only
      rw [toggle_neg hb2, hb]
    · rw [toggle_pos hb]
      dsimp only
      rw [toggle_neg hb2]
      dsimp only
      rw [load_after_save, hb, contains_str_iff]
      exact List.mem_append_right _ (List.mem_singleton_self id)
  · have hmemF : id ∉ load_pinned_notes st := fun hm => hb ((contains_str_iff _ _).2 hm)
    have hcF : (load_pinned_notes st).contains id = false := by
      cases hcc : (load_pinned_notes st).contains id with
      | false => rfl
      | true => exact absurd hcc hb
    have hb2 : (load_pinned_notes
        (save_pinned_notes st (load_pinned_notes st ++ [id]))).contains id = true := by
      rw [load_after_save, contains_str_iff]
      exact List.mem_append_right _ (List.mem_singleton_self id)
    refine ⟨?_, ?_, ?_⟩
    · rw [toggle_neg hb, hcF]
      rfl
    · rw [toggle_neg hb]
      dsimp only
      rw [toggle_pos hb2]
      dsimp only
      rw [hcF]
    · rw [toggle_neg hb]
      dsimp only
      rw [toggle_pos hb2]
      dsimp only
      rw [load_after_save, load_after_save,
        List.erase_append_right _ hmemF, List.erase_cons_head, List.append_nil]

theorem c6_toggle_twice_amended_witness :
    (load_pinned_notes emptyConfigState).count "n" ≤ 1 ∧
    ((toggle_pin_note emptyConfigState "n").1
        = !((load_pinned_notes emptyConfigState).contains "n") ∧
     (toggle_pin_note (toggle_pin_note emptyConfigState "n").2 "n").1
        = (load_pinned_notes emptyConfigState).contains "n" ∧
     (load_pinned_notes
         (toggle_pin_note (toggle_pin_note emptyConfigState "n").2 "n").2).contains "n"
        = (load_pinned_notes emptyConfigState).contains "n") :=
  ⟨by decide, c6_toggle_twice_amended emptyConfigState "n" (by decide)⟩

/-- C10: when the config file exists but its content is not parsable JSON,
toggle_pin_note succeeds (no error value exists on this path): the content is
treated as the default configuration, and the file is overwritten with a
serialized default configuration carrying only the updated pinned list,
discarding whatever was stored before. -/
theorem c10_unparsable_config_overwritten (st : FsState) (id : String)
    (h : st.config_doc = some ConfigDoc.unparsable) :
    toggle_pin_note st id =
      (true, { st with config_doc := some (ConfigDoc.value (configToJson
        { Config.default with pinned_notes := [id] })) }) := by
  have hload : load_pinned_notes st = [] := by
    rw [load_pinned_notes_eq, h]
    rfl
  have hcur : currentConfig st = Config.default := by
    rw [currentConfig_eq, h]
  have hb : ¬ (load_pinned_notes st).contains id = true := by
    rw [hload]
    exact fun hc => Bool.noConfusion hc
  rw [toggle_neg hb, save_pinned_notes, hload, hcur, List.nil_append]

theorem c10_unparsable_config_overwritten_witness :
    unparsableConfigState.config_doc = some ConfigDoc.unparsable ∧
    toggle_pin_note unparsableConfigState "n" =
      (true, { unparsableConfigState with config_doc := some (ConfigDoc.value (configToJson
        { Config.default with pinned_notes := ["n"] })) }) :=
  ⟨rfl, c10_unparsable_config_overwritten unparsableConfigState "n" rfl⟩

end Mded

namespace Mded

theorem list_notes_none (st : FsState) :
    list_notes st none = .ok (sortNotes (allNotesUnsorted st)) := rfl

theorem list_notes_some (st : FsState) (fname : String) :
    list_notes st (some fname) =
      if fname = "All Notes" ∨ fname = "" then .ok (sortNotes (allNotesUnsorted st))
      else if st.pathExists (get_folder_path st (some fname)) then
        .ok (sortNotes (folderNotesUnsorted st fname))
      else .error ("Folder '" ++ fname ++ "' does not exist") := rfl

theorem scanDir_src {st : FsState} {pinned : List String} {d : List String}
    {fname : String} {n : NoteInfo} (h : n ∈ scanDir st pinned d fname) :
    ∃ e ∈ st.files, n.id = trimEndMd (e.1.getLastD "") ∧
      n.title = (extract_note_title e.2.content).getD n.id := by
  rw [scanDir] at h
  obtain ⟨e, he, hn⟩ := List.mem_map.1 h
  rw [mdChildren] at he
  refine ⟨e, (List.mem_filter.1 he).1, ?_⟩
  subst hn
  exact ⟨rfl, rfl⟩

theorem allNotes_src {st : FsState} {n : NoteInfo} (hn : n ∈ allNotesUnsorted st) :
    ∃ e ∈ st.files, n.id = trimEndMd (e.1.getLastD "") ∧
      n.title = (extract_note_title e.2.content).getD n.id := by
  rw [allNotesUnsorted] at hn
  rcases List.mem_append.1 hn with hroot | hsub
  · exact scanDir_src hroot
  · obtain ⟨q, hq, hmem⟩ := List.mem_flatMap.1 hsub
    exact scanDir_src hmem

theorem raw_src {st : FsState} {folder : Option String} {notes : List NoteInfo}
    (h : list_notes st folder = .ok notes) :
    ∃ raw, notes = sortNotes raw ∧ list_notes st folder = .ok (sortNotes raw) ∧
      ∀ n ∈ raw, ∃ e ∈ st.files, n.id = trimEndMd (e.1.getLastD "") ∧
        n.title = (extract_note_title e.2.content).getD n.id := by
  cases folder with
  | none =>
    rw [list_notes_none] at h
    injection h with h2
    exact ⟨allNotesUnsorted st, h2.symm, list_notes_none st,
      fun n hn => allNotes_src hn⟩
  | some fname =>
    rw [list_notes_some] at h
    by_cases hall : fname = "All Notes" ∨ fname = ""
    · rw [if_pos hall] at h
      injection h with h2
      refine ⟨allNotesUnsorted st, h2.symm, ?_, fun n hn => allNotes_src hn⟩
      rw [list_notes_some, if_pos hall]
    · rw [if_neg hall] at h
      by_cases hex : st.pathExists (get_folder_path st (some fname)) = true
      · rw [if_pos hex] at h
        injection h with h2
        refine ⟨folderNotesUnsorted st fname, h2.symm, ?_, ?_⟩
        · rw [list_notes_some, if_neg hall, if_pos hex]
        · intro n hn
          rw [folderNotesUnsorted] at hn
          exact scanDir_src hn
      · rw [if_neg hex] at h
        exact Except.noConfusion h

theorem noteCmp_not_gt {a b : NoteInfo} : noteCmp a b ≠ .gt ↔
    ((a.pinned = true ∧ b.pinned = false) ∨
     (a.pinned = b.pinned ∧ b.modified ≤ a.modified)) := by
  cases ha : a.pinned <;> cases hb : b.pinned <;>
    simp [noteCmp, ha, hb, Nat.compare_eq_gt, Nat.not_lt]

theorem noteCmp_total (a b : NoteInfo) : noteCmp a b ≠ .gt ∨ noteCmp b a ≠ .gt := by
  rw [noteCmp_not_gt, noteCmp_not_gt]
  cases ha : a.pinned <;> cases hb : b.pinned <;> simp [ha, hb] <;> omega

theorem noteCmp_trans (a b c : NoteInfo) (h1 : noteCmp a b ≠ .gt)
    (h2 : noteCmp b c ≠ .gt) : noteCmp a c ≠ .gt := by
  rw [noteCmp_not_gt] at h1 h2 ⊢
  cases ha : a.pinned <;> cases hb : b.pinned <;> cases hc : c.pinned <;>
    simp_all <;> omega

theorem sortNotes_pairwise (raw : List NoteInfo) :
    List.Pairwise (fun a b => (a.pinned = true ∧ b.pinned = false) ∨
      (a.pinned = b.pinned ∧ b.modified ≤ a.modified)) (sortNotes raw) := by
  have hs : List.Sorted (fun a b => noteCmp a b ≠ .gt) (sortNotes raw) := by
    haveI : IsTotal NoteInfo (fun a b => noteCmp a b ≠ .gt) := ⟨noteCmp_total⟩
    haveI : IsTrans NoteInfo (fun a b => noteCmp a b ≠ .gt) := ⟨noteCmp_trans⟩
    exact List.sorted_insertionSort _ raw
  exact hs.imp (fun hab => noteCmp_not_gt.1 hab)

theorem sortNotes_perm (raw : List NoteInfo) : (sortNotes raw).Perm raw :=
  List.perm_insertionSort _ raw

theorem filter_orderedInsert_neg (r : NoteInfo → NoteInfo → Prop) [DecidableRel r]
    {p : NoteInfo → Bool} {a : NoteInfo} (hpa : p a = false) (l : List NoteInfo) :
    (List.orderedInsert r a l).filter p = l.filter p := by
  induction l with
  | nil => simp [List.orderedInsert, hpa]
  | cons b t ih =>
    by_cases hr : r a b
    · rw [List.orderedInsert, if_pos hr]
      simp [List.filter_cons, hpa]
    · rw [List.orderedInsert, if_neg hr]
      simp [List.filter_cons, ih]

theorem filter_orderedInsert_pos (r : NoteInfo → NoteInfo → Prop) [DecidableRel r]
    {p : NoteInfo → Bool} {a : NoteInfo} (hpa : p a = true)
    (hall : ∀ b, p b = true → r a b) (l : List NoteInfo) :
    (List.orderedInsert r a l).filter p = a :: l.filter p := by
  induction l with
  | nil => simp [List.orderedInsert, hpa]
  | cons b t ih =>
    by_cases hr : r a b
    · rw [List.orderedInsert, if_pos hr]
      simp [List.filter_cons, hpa]
    · have hpb : p b = false := by
        cases hpb : p b with
        | true => exact absurd (hall b hpb) hr
        | false => rfl
      rw [List.orderedInsert, if_neg hr]
      simp [List.filter_cons, hpb, ih]

theorem filter_insertionSort (r : NoteInfo → NoteInfo → Prop) [DecidableRel r]
    (p : NoteInfo → Bool) (hties : ∀ a b, p a = true → p b = true → r a b)
    (l : List NoteInfo) :
    (List.insertionSort r l).filter p = l.filter p := by
  induction l with
  | nil => rfl
  | cons a t ih =>
    rw [List.insertionSort]
    cases hpa : p a with
    | false =>
      rw [filter_orderedInsert_neg r hpa, ih, List.filter_cons, hpa]
      simp
    | true =>
      rw [filter_orderedInsert_pos r hpa (fun b hb => hties a b hpa hb), ih,
        List.filter_cons, hpa]
      simp

theorem sortNotes_stable (raw : List NoteInfo) (p : Bool) (m : Nat) :
    (sortNotes raw).filter (fun a => a.pinned == p && a.modified == m)
      = raw.filter (fun a => a.pinned == p && a.modified == m) := by
  apply filter_insertionSort
  intro a b ha hb
  simp only [Bool.and_eq_true, beq_iff_eq] at ha hb
  rw [noteCmp_not_gt]
  right
  constructor
  · rw [ha.1, hb.1]
  · rw [ha.2, hb.2]

/-- C5: every successful list_notes result is totally ordered with pinned
notes before unpinned ones and descending modified time within each group,
and the order is the stable sort of the enumeration: the result is a
permutation of an enumeration the call also accepts, and each
(pinned, modified) tie class keeps its enumeration order. -/
theorem c5_list_notes_sorted (st : FsState) (folder : Option String)
    (notes : List NoteInfo) (h : list_notes st folder = .ok notes) :
    List.Pairwise (fun a b => (a.pinned = true ∧ b.pinned = false) ∨
      (a.pinned = b.pinned ∧ b.modified ≤ a.modified)) notes ∧
    ∃ raw, list_notes st folder = .ok (sortNotes raw) ∧ notes.Perm raw ∧
      ∀ (p : Bool) (m : Nat),
        notes.filter (fun a => a.pinned == p && a.modified == m)
          = raw.filter (fun a => a.pinned == p && a.modified == m) := by
  obtain ⟨raw, heq, hok, -⟩ := raw_src h
  subst heq
  exact ⟨sortNotes_pairwise raw, raw, hok, sortNotes_perm raw,
    fun p m => sortNotes_stable raw p m⟩

theorem c5_list_notes_sorted_witness :
    list_notes titleState none = .ok (sortNotes (allNotesUnsorted titleState)) ∧
    (List.Pairwise (fun a b => (a.pinned = true ∧ b.pinned = false) ∨
      (a.pinned = b.pinned ∧ b.modified ≤ a.modified))
        (sortNotes (allNotesUnsorted titleState)) ∧
     ∃ raw, list_notes titleState none = .ok (sortNotes raw) ∧
       (sortNotes (allNotesUnsorted titleState)).Perm raw ∧
       ∀ (p : Bool) (m : Nat),
         (sortNotes (allNotesUnsorted titleState)).filter
             (fun a => a.pinned == p && a.modified == m)
           = raw.filter (fun a => a.pinned == p && a.modified == m)) :=
  ⟨rfl, c5_list_notes_sorted titleState none _ rfl⟩

/-- C7 counterexample: a note file whose first line is blank and whose
second line is "Title" is reported with the id as its title (the code only
reads the very first line), while the first non-blank line rule of the
spec would report "Title". -/
theorem c7_title_counterexample :
    (∃ notes, list_notes titleState none = .ok notes ∧
      notes.map NoteInfo.title = ["note1"]) ∧
    extract_note_title "\nTitle" = none ∧
    firstNonBlankTitle "\nTitle" "note1" = "Title" ∧
    "note1" ≠ "Title" :=
  ⟨⟨sortNotes (allNotesUnsorted titleState), rfl, rfl⟩, rfl, rfl, by decide⟩

/-- C7 amended: for every note enumerated by list_notes, the reported
title comes from some stored file: the FIRST line of that file (blank or
not) with leading '#' characters removed and whitespace trimmed, falling
back to the note id when there is no first line or the trimmed result is
empty. -/
theorem c7_title_amended (st : FsState) (folder : Option String)
    (notes : List NoteInfo) (h : list_notes st folder = .ok notes) :
    ∀ n ∈ notes, ∃ e ∈ st.files,
      n.id = trimEndMd (e.1.getLastD "") ∧
      n.title = (extract_note_title e.2.content).getD n.id := by
  obtain ⟨raw, heq, -, hsrc⟩ := raw_src h
  subst heq
  intro n hn
  rw [sortNotes] at hn
  exact hsrc n ((List.mem_insertionSort _).1 hn)

theorem c7_title_amended_witness :
    list_notes titleState none = .ok (sortNotes (allNotesUnsorted titleState)) ∧
    ∀ n ∈ sortNotes (allNotesUnsorted titleState), ∃ e ∈ titleState.files,
      n.id = trimEndMd (e.1.getLastD "") ∧
      n.title = (extract_note_title e.2.content).getD n.id :=
  ⟨rfl, c7_title_amended titleState none _ rfl⟩

/-- C9: for a folder argument outside None / "" / "All Notes", list_notes
never produces any of validate_path's rejection messages: it either
succeeds or fails with the folder-does-not-exist message (distinct from
all four validator messages), and whenever the path joined from the notes
root and the folder string exists -- '..' components included -- it
enumerates that directory's .md files. -/
theorem c9_list_notes_no_validation (st : FsState) (fname : String)
    (h1 : fname ≠ "All Notes") (h2 : fname ≠ "") :
    ((∃ notes, list_notes st (some fname) = .ok notes) ∨
      list_notes st (some fname)
        = .error ("Folder '" ++ fname ++ "' does not exist")) ∧
    (∀ e, list_notes st (some fname) = .error e →
      e ≠ "Path contains invalid traversal pattern '..'" ∧
      e ≠ "Path contains invalid separator '/'" ∧
      e ≠ "Path contains invalid separator '\\'" ∧
      e ≠ "Path resolves outside of base directory") ∧
    (st.pathExists (get_folder_path st (some fname)) = true →
      list_notes st (some fname) = .ok (sortNotes (folderNotesUnsorted st fname))) := by
  have hall : ¬ (fname = "All Notes" ∨ fname = "") := fun hor => hor.elim h1 h2
  by_cases hex : st.pathExists (get_folder_path st (some fname)) = true
  · have hokk : list_notes st (some fname)
        = .ok (sortNotes (folderNotesUnsorted st fname)) := by
      rw [list_notes_some, if_neg hall, if_pos hex]
    refine ⟨.inl ⟨_, hokk⟩, ?_, fun _ => hokk⟩
    intro e he
    rw [hokk] at he
    exact Except.noConfusion he
  · have herr : list_notes st (some fname)
        = .error ("Folder '" ++ fname ++ "' does not exist") := by
      rw [list_notes_some, if_neg hall, if_neg hex]
    refine ⟨.inr herr, ?_, fun hx => absurd hx hex⟩
    intro e he
    rw [herr] at he
    injection he with he2
    subst he2
    have hF : ("Folder '" ++ fname ++ "' does not exist").data.head? = some 'F' := by
      rw [String.data_append]
      rfl
    refine ⟨?_, ?_, ?_, ?_⟩ <;>
      (intro hbad
       rw [hbad] at hF
       exact absurd hF (by decide))

theorem c9_list_notes_no_validation_witness :
    (".." ≠ "All Notes") ∧ (".." ≠ "") ∧
    escapeState.pathExists (get_folder_path escapeState (some "..")) = true ∧
    (sortNotes (folderNotesUnsorted escapeState "..")).map NoteInfo.id = ["secret"] ∧
    (((∃ notes, list_notes escapeState (some "..") = .ok notes) ∨
      list_notes escapeState (some "..")
        = .error ("Folder '" ++ ".." ++ "' does not exist")) ∧
     (∀ e, list_notes escapeState (some "..") = .error e →
       e ≠ "Path contains invalid traversal pattern '..'" ∧
       e ≠ "Path contains invalid separator '/'" ∧
       e ≠ "Path contains invalid separator '\\'" ∧
       e ≠ "Path resolves outside of base directory") ∧
     (escapeState.pathExists (get_folder_path escapeState (some "..")) = true →
      list_notes escapeState (some "..")
        = .ok (sortNotes (folderNotesUnsorted escapeState "..")))) :=
  ⟨by decide, by decide, rfl, rfl,
    c9_list_notes_no_validation escapeState ".." (by decide) (by decide)⟩

end Mded

namespace Mded

theorem dbRun_cons (s : DbState) (e : DbEv) (evs : List DbEv) :
    dbRun s (e :: evs) = dbRun (dbStep s e) evs := rfl

theorem debounce_ms_eq : SAVE_DEBOUNCE_MS = 1000 := rfl

theorem dbStep_tick_fire {s : DbState} {n d : Nat} (hp : s.pending = some d)
    (hfire : d ≤ s.now + n) :
    dbStep s (DbEv.tick n)
      = { s with
          now := s.now + n
          pending := none
          writes := s.writes ++ [s.mirror] } := by
  obtain ⟨pr, mi, pd, now, ws⟩ := s
  dsimp only at hp hfire
  subst hp
  show (if d ≤ now + n then
      (⟨pr, mi, none, now + n, ws ++ [mi]⟩ : DbState)
    else ⟨pr, mi, some d, now + n, ws⟩)
    = ⟨pr, mi, none, now + n, ws ++ [mi]⟩
  rw [if_pos hfire]

theorem burst_run (ps : List ((Config → Config) × Nat)) :
    ∀ s : DbState, ps ≠ [] → (∀ p ∈ ps, p.2 < SAVE_DEBOUNCE_MS) →
    ∃ d, (dbRun s (burst ps)).pending = some d ∧
      (dbRun s (burst ps)).now < d ∧
      d ≤ (dbRun s (burst ps)).now + SAVE_DEBOUNCE_MS ∧
      (dbRun s (burst ps)).mirror = ps.foldl (fun c p => p.1 c) s.primary ∧
      (dbRun s (burst ps)).primary = ps.foldl (fun c p => p.1 c) s.primary ∧
      (dbRun s (burst ps)).writes = s.writes := by
  induction ps with
  | nil =>
    intro s hne _
    exact absurd rfl hne
  | cons p ps ih =>
    intro s _ hg
    obtain ⟨pr, mi, pd, now, ws⟩ := s
    have hgp : p.2 < 1000 := by
      have h0 := hg p (List.mem_cons_self p ps)
      rw [debounce_ms_eq] at h0
      exact h0
    have hb : burst (p :: ps) = .upd p.1 :: .sched :: .tick p.2 :: burst ps := rfl
    have hcond : ¬ ((now + SAVE_DEBOUNCE_MS : Nat) ≤ now + p.2) := by
      rw [debounce_ms_eq]
      omega
    have h1 : dbStep ⟨pr, mi, pd, now, ws⟩ (DbEv.upd p.1)
        = ⟨p.1 pr, p.1 pr, pd, now, ws⟩ := rfl
    have h2 : dbStep ⟨p.1 pr, p.1 pr, pd, now, ws⟩ DbEv.sched
        = ⟨p.1 pr, p.1 pr, some (now + SAVE_DEBOUNCE_MS), now, ws⟩ := rfl
    have h3 : dbStep ⟨p.1 pr, p.1 pr, some (now + SAVE_DEBOUNCE_MS), now, ws⟩
        (DbEv.tick p.2)
        = ⟨p.1 pr, p.1 pr, some (now + SAVE_DEBOUNCE_MS), now + p.2, ws⟩ := by
      show (if (now + SAVE_DEBOUNCE_MS) ≤ now + p.2 then
          (⟨p.1 pr, p.1 pr, none, now + p.2, ws ++ [p.1 pr]⟩ : DbState)
        else ⟨p.1 pr, p.1 pr, some (now + SAVE_DEBOUNCE_MS), now + p.2, ws⟩)
        = ⟨p.1 pr, p.1 pr, some (now + SAVE_DEBOUNCE_MS), now + p.2, ws⟩
      rw [if_neg hcond]
    have hrun : dbRun ⟨pr, mi, pd, now, ws⟩ (burst (p :: ps))
        = dbRun ⟨p.1 pr, p.1 pr, some (now + SAVE_DEBOUNCE_MS), now + p.2, ws⟩
          (burst ps) := by
      rw [hb, dbRun_cons, h1, dbRun_cons, h2, dbRun_cons, h3]
    cases ps with
    | nil =>
      refine ⟨now + SAVE_DEBOUNCE_MS, ?_, ?_, ?_, ?_, ?_, ?_⟩ <;> rw [hrun]
      · rfl
      · show now + p.2 < now + SAVE_DEBOUNCE_MS
        rw [debounce_ms_eq]
        omega
      · show now + SAVE_DEBOUNCE_MS ≤ now + p.2 + SAVE_DEBOUNCE_MS
        omega
      · rfl
      · rfl
      · rfl
    | cons q qs =>
      obtain ⟨d, hpend, hlt, hle, hm, hpr, hw⟩ :=
        ih ⟨p.1 pr, p.1 pr, some (now + SAVE_DEBOUNCE_MS), now + p.2, ws⟩
          (List.cons_ne_nil q qs) (fun r hr => hg r (List.mem_cons_of_mem p hr))
      refine ⟨d, ?_, ?_, ?_, ?_, ?_, ?_⟩ <;> rw [hrun]
      · exact hpend
      · exact hlt
      · exact hle
      · rw [hm]
        rfl
      · rw [hpr]
        rfl
      · rw [hw]

end Mded

namespace Mded

/-- C2: a burst of update-and-schedule rounds all landing inside the
1000 ms debounce window coalesces into exactly one disk write carrying the
latest value: no write happens during the burst, the single write
performed once the window elapses is the composition of every update in
order (never a stale value), and each schedule_save replaces the pending
deadline with a fresh one (cancel-and-supersede). -/
theorem c2_debounce_coalesces (s : DbState) (ps : List ((Config → Config) × Nat))
    (hne : ps ≠ []) (hg : ∀ p ∈ ps, p.2 < SAVE_DEBOUNCE_MS) :
    (dbRun s (burst ps)).writes = s.writes ∧
    (dbRun s (burst ps ++ [DbEv.tick SAVE_DEBOUNCE_MS])).writes
      = s.writes ++ [ps.foldl (fun c p => p.1 c) s.primary] ∧
    (dbStep s DbEv.sched).pending = some (s.now + SAVE_DEBOUNCE_MS) := by
  obtain ⟨d, hpend, hlt, hle, hm, hpr, hw⟩ := burst_run ps s hne hg
  refine ⟨hw, ?_, rfl⟩
  have hfin : dbRun s (burst ps ++ [DbEv.tick SAVE_DEBOUNCE_MS])
      = dbStep (dbRun s (burst ps)) (DbEv.tick SAVE_DEBOUNCE_MS) := by
    rw [dbRun, List.foldl_append]
    rfl
  rw [hfin, dbStep_tick_fire hpend hle]
  dsimp only
  rw [hw, hm]

theorem c2_debounce_coalesces_witness :
    burstExample ≠ [] ∧ (∀ p ∈ burstExample, p.2 < SAVE_DEBOUNCE_MS) ∧
    ((dbRun dbInit (burst burstExample)).writes = dbInit.writes ∧
     (dbRun dbInit (burst burstExample ++ [DbEv.tick SAVE_DEBOUNCE_MS])).writes
       = dbInit.writes ++ [burstExample.foldl (fun c p => p.1 c) dbInit.primary] ∧
     (dbStep dbInit DbEv.sched).pending = some (dbInit.now + SAVE_DEBOUNCE_MS)) :=
  ⟨List.cons_ne_nil _ _, by simp [burstExample, SAVE_DEBOUNCE_MS],
    c2_debounce_coalesces dbInit burstExample (List.cons_ne_nil _ _)
      (by simp [burstExample, SAVE_DEBOUNCE_MS])⟩

end Mded
